import Mathlib

/-!
Shallow embedding of the pokemon-alos simulation core
(src/pokemon_alos.py, src/items.py, src/simulation_engine.py).

Conventions of the embedding:
* Python float arithmetic is modelled over the reals; positions are pairs of reals
  and Euclidean distances use Real.sqrt (the source computes sqrt via np.sqrt or
  a 0.5 power on a non-negative square sum).
* hp, energy, relationship values and item effect values are integers in the
  source; they are modelled as Int.  Python floor division (//) is Int.fdiv.
* Randomness is an explicit input: a Rng value carries the stream of
  random.random() draws (as rationals, consumed in call order) and the stream of
  integers backing random.randint / random.choice / random.sample.
* The two external collaborators are explicit inputs of the step function:
  the ALOs narrator (alos_system.simulate_interaction) as an Except value, and
  the RAG context source as two Except values (query_context results and
  get_interaction_scenarios results).  A raised Python exception is the
  Except.error case; the source try/except blocks become matches on it.
* Mutation of a Python object becomes production of an updated copy; the
  engine's pokemon list is a Lean list updated at the mutated index.
-/

namespace PokemonAlos

/-- Stream of pre-drawn random values: random.random() draws in order, and the
integer stream backing randint / choice / sample. -/
structure Rng where
  floats : List ℚ
  ints : List ℤ

/-- One random.random() draw; an exhausted stream yields 1 (so every strict
probability comparison fails by default). -/
def nextFloat : Rng → ℚ × Rng
  | ⟨[], is⟩ => (1, ⟨[], is⟩)
  | ⟨f :: fs, is⟩ => (f, ⟨fs, is⟩)

/-- One random.randint(a, b) draw: the next raw integer reduced into [a, b]
(a stream value already in range is returned unchanged). -/
def nextInt (a b : ℤ) : Rng → ℤ × Rng
  | ⟨fs, []⟩ => (a, ⟨fs, []⟩)
  | ⟨fs, i :: is⟩ => (a + (i - a) % (b - a + 1), ⟨fs, is⟩)

/-- One index draw into a collection of size n (random.choice / random.sample). -/
def nextIdx (n : ℕ) : Rng → ℕ × Rng
  | ⟨fs, []⟩ => (0, ⟨fs, []⟩)
  | ⟨fs, i :: is⟩ => (i.natAbs % n, ⟨fs, is⟩)

/-- items.py, class Item (definition fields plus the optional field position). -/
structure Item where
  name : String
  item_type : String
  effect_type : String
  effect_value : ℤ
  position : Option (ℝ × ℝ)

instance : Inhabited Item :=
  ⟨{ name := "", item_type := "", effect_type := "", effect_value := 0, position := none }⟩

/-- pokemon_alos.py, class PokemonALOs: the state fields the engine operates on.
Fields that the simulation core never reads or writes (owner, species, type,
personality, alos_definition, action_history) are omitted.  The relationships
dict with its .get(key, 0) default is modelled as a total function that is 0
away from the stored keys. -/
structure Pokemon where
  key : String
  name : String
  position : ℝ × ℝ
  hp : ℤ
  energy : ℤ
  mood : String
  current_abilities : List String
  relationships : String → ℤ
  inventory : List Item

instance : Inhabited Pokemon :=
  ⟨{ key := "", name := "", position := (0, 0), hp := 100, energy := 100,
     mood := "normal", current_abilities := [], relationships := fun _ => 0,
     inventory := [] }⟩

/-- PokemonALOs.update_position: translate then clamp each axis into [0, 10]. -/
noncomputable def update_position (p : Pokemon) (dx dy : ℝ) : Pokemon :=
  { p with position := (max 0 (min 10 (p.position.1 + dx)),
                        max 0 (min 10 (p.position.2 + dy))) }

/-- PokemonALOs.move_towards. -/
noncomputable def move_towards (p : Pokemon) (target : ℝ × ℝ) (speed : ℝ) : Pokemon :=
  let dx := target.1 - p.position.1
  let dy := target.2 - p.position.2
  let dist := Real.sqrt (dx ^ 2 + dy ^ 2)
  if 0 < dist then update_position p (dx / dist * speed) (dy / dist * speed) else p

/-- PokemonALOs.move_away. -/
noncomputable def move_away (p : Pokemon) (target : ℝ × ℝ) (speed : ℝ) : Pokemon :=
  let dx := p.position.1 - target.1
  let dy := p.position.2 - target.2
  let dist := Real.sqrt (dx ^ 2 + dy ^ 2)
  if 0 < dist then update_position p (dx / dist * speed) (dy / dist * speed) else p

/-- PokemonALOs.random_walk: random.uniform(-speed, speed) is
-speed + 2 * speed * random.random() on each axis. -/
noncomputable def random_walk (p : Pokemon) (speed : ℝ) (rng : Rng) : Pokemon × Rng :=
  let fx := nextFloat rng
  let fy := nextFloat fx.2
  (update_position p (-speed + 2 * speed * (fx.1 : ℝ)) (-speed + 2 * speed * (fy.1 : ℝ)),
   fy.2)

/-- PokemonALOs.distance_to: Euclidean distance between the two positions. -/
noncomputable def distance_to (p1 p2 : Pokemon) : ℝ :=
  Real.sqrt ((p2.position.1 - p1.position.1) ^ 2 + (p2.position.2 - p1.position.2) ^ 2)

/-- PokemonALOs.take_damage: hp clamped below at 0, energy loses 5 clamped at 0,
then the mood transition reads the new hp (tired below 30, else angry below 60). -/
def take_damage (p : Pokemon) (damage : ℤ) : Pokemon :=
  let hp := max 0 (p.hp - damage)
  let energy := max 0 (p.energy - 5)
  let mood := if hp < 30 then "tired" else if hp < 60 then "angry" else p.mood
  { p with hp := hp, energy := energy, mood := mood }

/-- PokemonALOs.heal: hp clamped above at 100; mood becomes happy past 70. -/
def heal (p : Pokemon) (amount : ℤ) : Pokemon :=
  let hp := min 100 (p.hp + amount)
  let mood := if 70 < hp then "happy" else p.mood
  { p with hp := hp, mood := mood }

/-- PokemonALOs.rest. -/
def rest (p : Pokemon) : Pokemon :=
  let energy := min 100 (p.energy + 10)
  let hp := min 100 (p.hp + 3)
  let mood := if 80 < energy then "normal" else p.mood
  { p with hp := hp, energy := energy, mood := mood }

/-- PokemonALOs.learn_move. -/
def learn_move (p : Pokemon) (move : String) : Pokemon :=
  if move ∈ p.current_abilities then p
  else { p with current_abilities := p.current_abilities ++ [move], mood := "excited" }

/-- PokemonALOs.update_relationship: clamp of current + change into [-100, 100]. -/
def update_relationship (p : Pokemon) (other : String) (change : ℤ) : Pokemon :=
  let current := p.relationships other
  { p with relationships :=
      fun k => if k = other then max (-100) (min 100 (current + change))
               else p.relationships k }

/-- PokemonALOs.get_relationship. -/
def get_relationship (p : Pokemon) (other : String) : ℤ :=
  p.relationships other

/-- PokemonALOs.add_item: append when below the max_inventory of 3. -/
def add_item (p : Pokemon) (it : Item) : Pokemon × Bool :=
  if p.inventory.length < 3 then ({ p with inventory := p.inventory ++ [it] }, true)
  else (p, false)

/-- Item.use: effect dispatch on effect_type; the fallthrough branch for an
unknown effect kind leaves the pokemon untouched and reports a generic line. -/
def Item.use (it : Item) (p : Pokemon) : Pokemon × String :=
  if it.effect_type = "hp" then
    let p2 := heal p it.effect_value
    (p2, p.name ++ "はHPが" ++ toString (p2.hp - p.hp) ++ "回復した！")
  else if it.effect_type = "energy" then
    let p2 := { p with energy := min 100 (p.energy + it.effect_value) }
    (p2, p.name ++ "はEnergyが" ++ toString (p2.energy - p.energy) ++ "回復した！")
  else if it.effect_type = "mood" then
    if p.mood = "angry" ∨ p.mood = "tired" then
      ({ p with mood := "happy" }, p.name ++ "の気分が良くなった！")
    else
      ({ p with mood := "excited" }, p.name ++ "は元気になった！")
  else if it.effect_type = "mixed" then
    let p2 := heal p (it.effect_value.fdiv 2)
    let p3 := { p2 with energy := min 100 (p2.energy + it.effect_value.fdiv 2) }
    (p3, p.name ++ "は元気を取り戻した！")
  else (p, p.name ++ "は" ++ it.name ++ "を使った")

/-- PokemonALOs.use_item: pop the indexed item then apply it; out-of-range
indices leave the pokemon unchanged and report nothing. -/
def use_item (p : Pokemon) (i : ℕ) : Pokemon × Option String :=
  if h : i < p.inventory.length then
    let it := p.inventory.get ⟨i, h⟩
    let p2 := { p with inventory := p.inventory.eraseIdx i }
    let u := Item.use it p2
    (u.1, some u.2)
  else (p, none)

/-- Inventory scan predicate of the first auto_use_item rule. -/
def isHpItem (it : Item) : Bool :=
  it.effect_type == "hp" || it.effect_type == "mixed"

/-- Inventory scan predicate of the second auto_use_item rule. -/
def isEnergyItem (it : Item) : Bool :=
  it.effect_type == "energy" || it.effect_type == "mixed"

/-- Inventory scan predicate of the third auto_use_item rule. -/
def isMoodItem (it : Item) : Bool :=
  it.effect_type == "mood"

/-- PokemonALOs.auto_use_item: three independent if blocks in sequence, each
scanning the inventory in order and returning on the first match, so a rule
whose scan finds nothing falls through to the next rule. -/
def auto_use_item (p : Pokemon) : Pokemon × Option String :=
  match (if p.hp ≤ 50 then p.inventory.findIdx? isHpItem else none) with
  | some i => use_item p i
  | none =>
    match (if p.energy ≤ 30 then p.inventory.findIdx? isEnergyItem else none) with
    | some i => use_item p i
    | none =>
      match (if p.mood = "angry" ∨ p.mood = "tired" then
               p.inventory.findIdx? isMoodItem else none) with
      | some i => use_item p i
      | none => (p, none)

/-- items.py BERRY_TYPES catalog in dict insertion order:
(name, effect_type, effect_value); every entry has item_type berry. -/
def BERRY_TYPES : List (String × String × ℤ) :=
  [("オレンのみ", "hp", 20),
   ("オボンのみ", "hp", 40),
   ("チーゴのみ", "energy", 30),
   ("モモンのみ", "mood", 1),
   ("ナナのみ", "mixed", 30),
   ("キーのみ", "energy", 50),
   ("ヒメリのみ", "hp", 15)]

/-- ItemManager.create_random_berry: uniform choice from the catalog. -/
def create_random_berry (rng : Rng) : Item × Rng :=
  let d := nextIdx BERRY_TYPES.length rng
  let b := BERRY_TYPES.getD d.1 ("オレンのみ", "hp", 20)
  ({ name := b.1, item_type := "berry", effect_type := b.2.1, effect_value := b.2.2,
     position := none }, d.2)

/-- ItemManager.spawn_item over the field item list (field_size 10 × 10,
spawn_probability 0.03, max_items_on_field 5): when below the cap, one Bernoulli
trial; on success a random berry is placed uniformly in [0.5, 9.5] × [0.5, 9.5]
and appended. -/
noncomputable def spawn_item (items : List Item) (rng : Rng) :
    Option Item × List Item × Rng :=
  if 5 ≤ items.length then (none, items, rng)
  else
    let f := nextFloat rng
    if f.1 < mkRat 3 100 then
      let c := create_random_berry f.2
      let fx := nextFloat c.2
      let fy := nextFloat fx.2
      let x : ℝ := 0.5 + 9 * (fx.1 : ℝ)
      let y : ℝ := 0.5 + 9 * (fy.1 : ℝ)
      let it := { c.1 with position := some (x, y) }
      (some it, items ++ [it], fy.2)
    else (none, items, f.2)

/-- ItemManager.check_pickup: scan the field items in insertion order; the first
item with a set position strictly within pickup_distance (Euclidean) of pos is
removed and returned; everything else is kept in order. -/
noncomputable def check_pickup (pos : ℝ × ℝ) (pickup_distance : ℝ) :
    List Item → Option Item × List Item
  | [] => (none, [])
  | it :: rest =>
    match it.position with
    | some q =>
      if Real.sqrt ((pos.1 - q.1) ^ 2 + (pos.2 - q.2) ^ 2) < pickup_distance then
        (some it, rest)
      else
        let r := check_pickup pos pickup_distance rest
        (r.1, it :: r.2)
    | none =>
      let r := check_pickup pos pickup_distance rest
      (r.1, it :: r.2)

/-- SimulationEngine.battle_probability. -/
def battle_probability : ℚ := mkRat 15 100

/-- SimulationEngine.friendship_probability. -/
def friendship_probability : ℚ := mkRat 20 100

/-- SimulationEngine.learn_probability. -/
def learn_probability : ℚ := mkRat 10 100

/-- SimulationEngine.random_event_probability. -/
def random_event_probability : ℚ := mkRat 10 100

/-- SimulationEngine state: the pokemon dict in insertion order, the step
counter, the bounded event log, and the item manager's field item list. -/
structure Engine where
  pokemons : List Pokemon
  step_count : ℤ
  event_log : List String
  items_on_field : List Item

/-- SimulationEngine.log_event: append a stamped entry, then evict the oldest
entry once the log holds more than 200. -/
def log_event (e : Engine) (event : String) : Engine :=
  let entry := "[Step " ++ toString e.step_count ++ "] " ++ event
  let log := e.event_log ++ [entry]
  { e with event_log := if 200 < log.length then log.drop 1 else log }

/-- Python list slicing l[i:] (start index clamped into range, negative start
counted from the end). -/
def pySliceFrom {α : Type} (l : List α) (i : ℤ) : List α :=
  if i < 0 then l.drop (l.length - i.natAbs) else l.drop i.toNat

/-- SimulationEngine.get_recent_logs: the source returns event_log[-n:]. -/
def get_recent_logs (e : Engine) (n : ℕ) : List String :=
  pySliceFrom e.event_log (-(n : ℤ))

/-- Distance band a pair of agents falls into during the pairwise phase. -/
inductive Band where
  | interact : Band
  | aware : Band
  | far : Band
deriving DecidableEq, Repr

/-- The band the pairwise dispatch in SimulationEngine.step selects for a given
distance: below 1.5 interaction, below 3.0 awareness, otherwise nothing. -/
noncomputable def bandOf (d : ℝ) : Band :=
  if d < 1.5 then Band.interact else if d < 3.0 then Band.aware else Band.far

/-- SimulationEngine._handle_awareness: moves only pokemon1. -/
noncomputable def handle_awareness (p1 p2 : Pokemon) : Pokemon :=
  let relationship := get_relationship p1 p2.key
  if relationship < -30 then move_towards p1 p2.position 0.2
  else if 50 < relationship then move_towards p1 p2.position 0.15
  else if p1.mood = "tired" then move_away p1 p2.position 0.1
  else p1

/-- SimulationEngine._simulate_battle.  The rag_system.query_context call sits
before the try block, so a context failure escapes; a narrator failure inside
the try block is replaced by the flat fallback.  Returns the two updated
pokemons, the log_event lines in order, the step event string, and the rng. -/
def simulate_battle (ctx : Except Unit (List String)) (narr : Except Unit String)
    (p1 p2 : Pokemon) (rng : Rng) :
    Except Unit (Pokemon × Pokemon × List String × String × Rng) :=
  match ctx with
  | Except.error e => Except.error e
  | Except.ok _ =>
    match narr with
    | Except.ok result =>
      let d1 := nextInt 10 25 rng
      let d2 := nextInt 10 25 d1.2
      let q1 := take_damage p1 d2.1
      let q2 := take_damage p2 d1.1
      let q1 := update_relationship q1 p2.key (-5)
      let q2 := update_relationship q2 p1.key (-5)
      Except.ok (q1, q2,
        ["⚔️ " ++ p1.name ++ " vs " ++ p2.name ++ ": バトル発生！", result],
        "Battle: " ++ p1.name ++ " vs " ++ p2.name, d2.2)
    | Except.error _ =>
      let q1 := take_damage p1 15
      let q2 := take_damage p2 15
      let q1 := update_relationship q1 p2.key (-5)
      let q2 := update_relationship q2 p1.key (-5)
      Except.ok (q1, q2,
        ["⚔️ " ++ p1.name ++ "と" ++ p2.name ++ "が戦った！"],
        "Battle: " ++ p1.name ++ " vs " ++ p2.name, rng)

/-- SimulationEngine._simulate_friendship: same shape as the battle resolver;
the success path also sets both moods to happy and heals both by 5, the
narrator-failure fallback only updates the relationships. -/
def simulate_friendship (ctx : Except Unit (List String)) (narr : Except Unit String)
    (p1 p2 : Pokemon) (rng : Rng) :
    Except Unit (Pokemon × Pokemon × List String × String × Rng) :=
  match ctx with
  | Except.error e => Except.error e
  | Except.ok _ =>
    match narr with
    | Except.ok result =>
      let q1 := update_relationship p1 p2.key 10
      let q2 := update_relationship p2 p1.key 10
      let q1 := { q1 with mood := "happy" }
      let q2 := { q2 with mood := "happy" }
      let q1 := heal q1 5
      let q2 := heal q2 5
      Except.ok (q1, q2,
        ["💚 " ++ p1.name ++ "と" ++ p2.name ++ "が仲良くなった！", result],
        "Friendship: " ++ p1.name ++ " & " ++ p2.name, rng)
    | Except.error _ =>
      let q1 := update_relationship p1 p2.key 10
      let q2 := update_relationship p2 p1.key 10
      Except.ok (q1, q2,
        ["💚 " ++ p1.name ++ "と" ++ p2.name ++ "が交流した"],
        "Friendship: " ++ p1.name ++ " & " ++ p2.name, rng)

/-- SimulationEngine._handle_interaction: hostile branch first, then friendly,
then the neutral roll; at most one resolver runs. -/
def handle_interaction (ctx : Except Unit (List String)) (narr : Except Unit String)
    (p1 p2 : Pokemon) (rng : Rng) :
    Except Unit (Pokemon × Pokemon × List String × Option String × Rng) :=
  let rel1 := get_relationship p1 p2.key
  let rel2 := get_relationship p2 p1.key
  if rel1 < -30 ∨ rel2 < -30 then
    let f := nextFloat rng
    if f.1 < battle_probability * 2 then
      match simulate_battle ctx narr p1 p2 f.2 with
      | Except.error e => Except.error e
      | Except.ok (q1, q2, ls, ev, rng2) => Except.ok (q1, q2, ls, some ev, rng2)
    else Except.ok (p1, p2, [], none, f.2)
  else if 30 < rel1 ∨ 30 < rel2 then
    let f := nextFloat rng
    if f.1 < friendship_probability * 2 then
      match simulate_friendship ctx narr p1 p2 f.2 with
      | Except.error e => Except.error e
      | Except.ok (q1, q2, ls, ev, rng2) => Except.ok (q1, q2, ls, some ev, rng2)
    else Except.ok (p1, p2, [], none, f.2)
  else
    let f := nextFloat rng
    if f.1 < battle_probability then
      match simulate_battle ctx narr p1 p2 f.2 with
      | Except.error e => Except.error e
      | Except.ok (q1, q2, ls, ev, rng2) => Except.ok (q1, q2, ls, some ev, rng2)
    else if f.1 < battle_probability + friendship_probability then
      match simulate_friendship ctx narr p1 p2 f.2 with
      | Except.error e => Except.error e
      | Except.ok (q1, q2, ls, ev, rng2) => Except.ok (q1, q2, ls, some ev, rng2)
    else Except.ok (p1, p2, [], none, f.2)

/-- The i < j index pairs in the order of the nested loop
for i, p1 in enumerate(lst): for p2 in lst[i+1:]. -/
def pairList (n : ℕ) : List (ℕ × ℕ) :=
  (List.range n).flatMap fun i =>
    ((List.range n).filter fun j => i < j).map fun j => (i, j)

/-- State threaded through the pairwise phase of step: the live pokemon list,
the log_event lines and step event strings produced so far, the observed
band of every pair already processed, and the rng. -/
structure PairPhaseState where
  pokemons : List Pokemon
  lines : List String
  events : List String
  trace : List (ℕ × ℕ × Band)
  rng : Rng

/-- List fold in the Except monad: stop at the first error. -/
def foldE {σ α ε : Type} (f : σ → α → Except ε σ) : σ → List α → Except ε σ
  | s, [] => Except.ok s
  | s, a :: l =>
    match f s a with
    | Except.error e => Except.error e
    | Except.ok s2 => foldE f s2 l

/-- One iteration of the pairwise loop of step: the distance is read from the
positions current at this point of the tick (it is not cached from the start of
the phase), then the pair is dispatched on its band. -/
noncomputable def process_pair (ctx : Except Unit (List String))
    (narr : Except Unit String) (s : PairPhaseState) (ij : ℕ × ℕ) :
    Except Unit PairPhaseState :=
  let p1 := s.pokemons.getD ij.1 default
  let p2 := s.pokemons.getD ij.2 default
  let d := distance_to p1 p2
  if d < 1.5 then
    match handle_interaction ctx narr p1 p2 s.rng with
    | Except.error e => Except.error e
    | Except.ok (q1, q2, ls, ev, rng2) =>
      Except.ok { pokemons := (s.pokemons.set ij.1 q1).set ij.2 q2,
                  lines := s.lines ++ ls,
                  events := s.events ++ ev.toList,
                  trace := s.trace ++ [(ij.1, ij.2, Band.interact)],
                  rng := rng2 }
  else if d < 3.0 then
    Except.ok { s with pokemons := s.pokemons.set ij.1 (handle_awareness p1 p2),
                       trace := s.trace ++ [(ij.1, ij.2, Band.aware)] }
  else
    Except.ok { s with trace := s.trace ++ [(ij.1, ij.2, Band.far)] }

/-- The whole pairwise phase of step. -/
noncomputable def pairwise_phase (ctx : Except Unit (List String))
    (narr : Except Unit String) (ps : List Pokemon) (rng : Rng) :
    Except Unit PairPhaseState :=
  foldE (process_pair ctx narr) ⟨ps, [], [], [], rng⟩ (pairList ps.length)

/-- The per-pair bands computed from one frozen snapshot of the positions:
what the pairwise phase would observe if no position changed during it. -/
noncomputable def frozenTrace (ps : List Pokemon) : List (ℕ × ℕ × Band) :=
  (pairList ps.length).map fun ij =>
    (ij.1, ij.2, bandOf (distance_to (ps.getD ij.1 default) (ps.getD ij.2 default)))

/-- SimulationEngine._practice_move: the fixed per-key move catalog. -/
def potential_moves (key : String) : List String :=
  if key = "pikachu" then ["ボルテッカー", "エレキボール", "なみのり"]
  else if key = "meowth" then ["つじぎり", "イカサマ", "アシストパワー"]
  else if key = "sprigatito" then ["エナジーボール", "ソーラービーム", "やどりぎのタネ"]
  else []

/-- SimulationEngine._practice_move. -/
def practice_move (p : Pokemon) (rng : Rng) : Pokemon × List String × Rng :=
  if 6 ≤ p.current_abilities.length then (p, [], rng)
  else
    let new_moves := (potential_moves p.key).filter fun m => !(m ∈ p.current_abilities)
    if new_moves.isEmpty then (p, [], rng)
    else
      let f := nextFloat rng
      if f.1 < mkRat 3 10 then
        let d := nextIdx new_moves.length f.2
        let m := new_moves.getD d.1 ("")
        (learn_move p m, ["✨ " ++ p.name ++ "は" ++ m ++ "を覚えた！"], d.2)
      else (p, [], f.2)

/-- SimulationEngine._handle_individual_action. -/
noncomputable def handle_individual_action (p : Pokemon) (rng : Rng) :
    Pokemon × List String × Rng :=
  if p.energy < 30 then
    let p2 := rest p
    let f := nextFloat rng
    (p2, if f.1 < mkRat 10 100 then [p2.name ++ "は休憩している..."] else [], f.2)
  else if p.hp < 40 then
    let p2 := rest p
    let f := nextFloat rng
    (p2, if f.1 < mkRat 15 100 then [p2.name ++ "は傷を癒やしている..."] else [], f.2)
  else
    let w := random_walk p 0.15 rng
    let f := nextFloat w.2
    if f.1 < learn_probability then practice_move w.1 f.2
    else (w.1, [], f.2)

/-- State threaded through the individual phase of step. -/
structure IndivState where
  pokemons : List Pokemon
  items : List Item
  lines : List String
  rng : Rng

/-- The pickup consequence in the individual loop of step: a picked item that
fits the inventory is added (with a pickup log line); when the inventory is
full the item is consumed on the spot instead. -/
def pickup_apply (p1 : Pokemon) (o : Option Item) : Pokemon × List String :=
  match o with
  | some it =>
    let a := add_item p1 it
    if a.2 then (a.1, ["📦 " ++ p1.name ++ "は" ++ it.name ++ "を拾った！"])
    else
      let u := Item.use it a.1
      (u.1, ["💊 " ++ u.2])
  | none => (p1, [])

/-- One iteration of the individual loop of step: individual action, pickup
attempt, then the automatic item use. -/
noncomputable def process_individual (s : IndivState) (i : ℕ) : IndivState :=
  let p0 := s.pokemons.getD i default
  let act := handle_individual_action p0 s.rng
  let p1 := act.1
  let pick := check_pickup p1.position 0.6 s.items
  let afterPick := pickup_apply p1 pick.1
  let au := auto_use_item afterPick.1
  let autoLines := match au.2 with | some r => ["💊 " ++ r] | none => []
  { pokemons := s.pokemons.set i au.1,
    items := pick.2,
    lines := s.lines ++ act.2.1 ++ afterPick.2 ++ autoLines,
    rng := act.2.2 }

/-- SimulationEngine._trigger_random_event: the scenario list comes from
rag_system.get_interaction_scenarios with no surrounding try, so a context
failure escapes; random.sample of two distinct indices is modelled by two
index draws. -/
noncomputable def trigger_random_event (scen : Except Unit (List String))
    (ps : List Pokemon) (rng : Rng) :
    Except Unit (List Pokemon × List String × Option String × Rng) :=
  match scen with
  | Except.error e => Except.error e
  | Except.ok scenarios =>
    if scenarios.isEmpty then Except.ok (ps, [], none, rng)
    else
      let d := nextIdx scenarios.length rng
      let scenario := scenarios.getD d.1 ("")
      let line := "🎲 ランダムイベント: " ++ scenario
      if 2 ≤ ps.length then
        let d1 := nextIdx ps.length d.2
        let d2 := nextIdx (ps.length - 1) d1.2
        let i1 := d1.1
        let i2 := if i1 ≤ d2.1 then d2.1 + 1 else d2.1
        let q1 := move_towards (ps.getD i1 default) (ps.getD i2 default).position 0.5
        Except.ok (ps.set i1 q1, [line], some ("Random Event: " ++ scenario), d2.2)
      else
        Except.ok (ps, [line], some ("Random Event: " ++ scenario), d.2)

/-- The snapshot dict returned by SimulationEngine.step. -/
structure Snapshot where
  step : ℤ
  events : List String
  pokemons_state : List Pokemon

/-- SimulationEngine.step.  The three Except inputs are the external
collaborators: ctx is the rag query_context result, narr the ALOs narrator
result, scen the rag get_interaction_scenarios result; an Except.error input
is a collaborator that raises when called. -/
noncomputable def step (ctx : Except Unit (List String)) (narr : Except Unit String)
    (scen : Except Unit (List String)) (e : Engine) (rng : Rng) :
    Except Unit (Snapshot × Engine × Rng) :=
  let e1 := { e with step_count := e.step_count + 1 }
  let sp := spawn_item e1.items_on_field rng
  let e2 := { e1 with items_on_field := sp.2.1 }
  let spawnLines := match sp.1 with
    | some it => ["🍓 " ++ it.name ++ "が出現した！"]
    | none => []
  let e3 := spawnLines.foldl log_event e2
  match pairwise_phase ctx narr e3.pokemons sp.2.2 with
  | Except.error err => Except.error err
  | Except.ok pw =>
    let e4 := { e3 with pokemons := pw.pokemons }
    let e5 := pw.lines.foldl log_event e4
    let ind := (List.range pw.pokemons.length).foldl process_individual
      { pokemons := pw.pokemons, items := e5.items_on_field, lines := [], rng := pw.rng }
    let e6 := { e5 with pokemons := ind.pokemons, items_on_field := ind.items }
    let e7 := ind.lines.foldl log_event e6
    let f := nextFloat ind.rng
    if f.1 < random_event_probability then
      match trigger_random_event scen e7.pokemons f.2 with
      | Except.error err => Except.error err
      | Except.ok (ps, lines, ev, rng3) =>
        let e8 := { e7 with pokemons := ps }
        let e9 := lines.foldl log_event e8
        Except.ok ({ step := e9.step_count, events := pw.events ++ ev.toList,
                     pokemons_state := e9.pokemons }, e9, rng3)
    else
      Except.ok ({ step := e7.step_count, events := pw.events,
                   pokemons_state := e7.pokemons }, e7, f.2)

/-- Vitals invariant of one pokemon: hp and energy both within [0, 100]. -/
def VOK (p : Pokemon) : Prop :=
  0 ≤ p.hp ∧ p.hp ≤ 100 ∧ 0 ≤ p.energy ∧ p.energy ≤ 100

/-- Every item of a list has a non-negative effect value. -/
def ItemsOK (l : List Item) : Prop :=
  ∀ it ∈ l, 0 ≤ it.effect_value

/-- Pokemon invariant: vitals in range and only non-negative effect values held. -/
def POK (p : Pokemon) : Prop :=
  VOK p ∧ ItemsOK p.inventory

/-- Engine invariant: every agent satisfies POK and the field items all have
non-negative effect values. -/
def EngOK (e : Engine) : Prop :=
  (∀ p ∈ e.pokemons, POK p) ∧ ItemsOK e.items_on_field

/-- A field item the check_pickup scan accepts: its position is set and lies
strictly within pickup_distance of pos. -/
def withinPickup (pos : ℝ × ℝ) (pickup_distance : ℝ) (it : Item) : Prop :=
  ∃ q, it.position = some q ∧
    Real.sqrt ((pos.1 - q.1) ^ 2 + (pos.2 - q.2) ^ 2) < pickup_distance

/-- An energy berry of the source catalog (チーゴのみ). -/
def berryEnergy : Item :=
  { name := "チーゴのみ", item_type := "berry", effect_type := "energy",
    effect_value := 30, position := none }

/-- A hp berry of the source catalog (オレンのみ). -/
def berryHp : Item :=
  { name := "オレンのみ", item_type := "berry", effect_type := "hp",
    effect_value := 20, position := none }

/-- Low-hp, low-energy agent holding only an energy berry. -/
def agentA : Pokemon :=
  { key := "a", name := "A", position := (0, 0), hp := 40, energy := 20,
    mood := "normal", current_abilities := [], relationships := fun _ => 0,
    inventory := [berryEnergy] }

/-- Low-hp, low-energy agent holding a hp berry then an energy berry. -/
def agentB : Pokemon :=
  { key := "b", name := "B", position := (0, 0), hp := 40, energy := 20,
    mood := "normal", current_abilities := [], relationships := fun _ => 0,
    inventory := [berryHp, berryEnergy] }

/-- Fresh agent at full vitals with neutral relationships. -/
def agentP : Pokemon :=
  { key := "p", name := "P", position := (0, 0), hp := 100, energy := 100,
    mood := "normal", current_abilities := [], relationships := fun _ => 0,
    inventory := [] }

/-- Second fresh agent at full vitals with neutral relationships. -/
def agentQ : Pokemon :=
  { key := "q", name := "Q", position := (0, 0), hp := 100, energy := 100,
    mood := "normal", current_abilities := [], relationships := fun _ => 0,
    inventory := [] }

/-- Field item sitting exactly on the origin. -/
def itemX : Item :=
  { name := "X", item_type := "berry", effect_type := "hp", effect_value := 20,
    position := some ((0 : ℝ), (0 : ℝ)) }

/-- Second field item sitting exactly on the origin. -/
def itemY : Item :=
  { name := "Y", item_type := "berry", effect_type := "energy", effect_value := 30,
    position := some ((0 : ℝ), (0 : ℝ)) }

/-- Low-energy lone agent used to drive the step function into its
rest branch deterministically. -/
def agentE : Pokemon :=
  { key := "e", name := "E", position := (0, 0), hp := 100, energy := 20,
    mood := "normal", current_abilities := [], relationships := fun _ => 0,
    inventory := [] }

/-- One-agent engine. -/
def engineE : Engine :=
  { pokemons := [agentE], step_count := 0, event_log := [], items_on_field := [] }

/-- Rng whose step draws are: spawn roll 1/2 (no spawn), rest log roll 1/2
(no log), random event roll 1/20 (event fires). -/
def rngE : Rng := ⟨[mkRat 1 2, mkRat 1 2, mkRat 1 20], []⟩

/-- Agent at the origin that hates the agent keyed b. -/
def cexA : Pokemon :=
  { key := "a", name := "A", position := (0, 0), hp := 100, energy := 100,
    mood := "normal", current_abilities := [],
    relationships := fun k => if k = "b" then -40 else 0, inventory := [] }

/-- Agent two units right of cexA. -/
def cexB : Pokemon :=
  { key := "b", name := "B", position := (2, 0), hp := 100, energy := 100,
    mood := "normal", current_abilities := [], relationships := fun _ => 0,
    inventory := [] }

/-- Agent 1.6 units right of cexA: in the awareness band of cexA at the start
of the pairwise phase, in the interaction band once cexA has moved. -/
noncomputable def cexC : Pokemon :=
  { key := "c", name := "C", position := (1.6, 0), hp := 100, energy := 100,
    mood := "normal", current_abilities := [], relationships := fun _ => 0,
    inventory := [] }

/-- The three-agent population of the pairwise-phase counterexample. -/
noncomputable def cexPops : List Pokemon := [cexA, cexB, cexC]

/-- Rng for the pairwise-phase counterexample: two neutral interaction rolls
of 9/10, so no battle or friendship fires. -/
def cexRng : Rng := ⟨[mkRat 9 10, mkRat 9 10], []⟩

/-- cexA after the awareness move toward cexB: 0.2 units along the x axis. -/
noncomputable def cexA2 : Pokemon := { cexA with position := ((0.2 : ℝ), (0 : ℝ)) }

/-- The pairwise-phase state the counterexample run ends in. -/
noncomputable def cexFinal : PairPhaseState :=
  { pokemons := [cexA2, cexB, cexC], lines := [], events := [],
    trace := [(0, 1, Band.aware), (0, 2, Band.interact), (1, 2, Band.interact)],
    rng := ⟨[], []⟩ }

/-- An item with an effect kind outside the four known kinds. -/
def itemWeird : Item :=
  { name := "N", item_type := "x", effect_type := "weird", effect_value := 1,
    position := none }

/-- An engine holding three log entries. -/
def engineLogs : Engine :=
  { pokemons := [], step_count := 0, event_log := ["x1", "x2", "x3"],
    items_on_field := [] }

/- ------------------------------------------------------------------ -/
/- Theorems.                                                          -/
/- ------------------------------------------------------------------ -/

theorem findIdx?_go_lt {α : Type} (p : α → Bool) :
    ∀ (l : List α) (s i : ℕ), List.findIdx? p l s = some i → i < s + l.length := by
  intro l
  induction l with
  | nil => intro s i h; simp [List.findIdx?] at h
  | cons a t ih =>
    intro s i h
    simp only [List.findIdx?] at h
    by_cases hp : p a
    · rw [if_pos hp] at h
      cases h
      simp
    · rw [if_neg hp] at h
      have := ih (s + 1) i h
      simp
      omega

theorem findIdx?_lt_length {α : Type} (p : α → Bool) (l : List α) (i : ℕ)
    (h : l.findIdx? p = some i) : i < l.length := by
  have := findIdx?_go_lt p l 0 i h
  omega

/-- Claim C4: takeDamage sets hp to max(0, hp - amount) and energy to
max(0, energy - 5); afterwards mood becomes tired when the new hp is below 30,
else angry when the new hp is below 60, else the mood is unchanged, the
below-30 check winning when both thresholds are crossed. -/
theorem c4_take_damage (p : Pokemon) (amount : ℤ) (_hamt : 0 ≤ amount) :
    (take_damage p amount).hp = max 0 (p.hp - amount) ∧
    (take_damage p amount).energy = max 0 (p.energy - 5) ∧
    (max 0 (p.hp - amount) < 30 → (take_damage p amount).mood = "tired") ∧
    (¬ max 0 (p.hp - amount) < 30 → max 0 (p.hp - amount) < 60 →
      (take_damage p amount).mood = "angry") ∧
    (¬ max 0 (p.hp - amount) < 60 → (take_damage p amount).mood = p.mood) := by
  have hmood : (take_damage p amount).mood =
      (if max 0 (p.hp - amount) < 30 then "tired"
       else if max 0 (p.hp - amount) < 60 then "angry" else p.mood) := rfl
  refine ⟨rfl, rfl, ?_, ?_, ?_⟩
  · intro h
    rw [hmood, if_pos h]
  · intro h1 h2
    rw [hmood, if_neg h1, if_pos h2]
  · intro h
    rw [hmood, if_neg (by omega), if_neg h]

theorem c4_witness :
    (0 : ℤ) ≤ 80 ∧
    ((take_damage agentP 80).hp = max 0 (agentP.hp - 80) ∧
     (take_damage agentP 80).energy = max 0 (agentP.energy - 5) ∧
     (max 0 (agentP.hp - 80) < 30 → (take_damage agentP 80).mood = "tired") ∧
     (¬ max 0 (agentP.hp - 80) < 30 → max 0 (agentP.hp - 80) < 60 →
       (take_damage agentP 80).mood = "angry") ∧
     (¬ max 0 (agentP.hp - 80) < 60 → (take_damage agentP 80).mood = agentP.mood)) :=
  ⟨by norm_num, c4_take_damage agentP 80 (by norm_num)⟩

/-- Claim C9: using an item whose effect kind is none of hp, energy, mood,
mixed leaves hp, energy and mood unchanged and returns the non-empty generic
used-the-item line (never an absent result). -/
theorem c9_unknown_effect (it : Item) (p : Pokemon)
    (h1 : it.effect_type ≠ "hp") (h2 : it.effect_type ≠ "energy")
    (h3 : it.effect_type ≠ "mood") (h4 : it.effect_type ≠ "mixed") :
    Item.use it p = (p, p.name ++ "は" ++ it.name ++ "を使った") ∧
    (Item.use it p).1.hp = p.hp ∧ (Item.use it p).1.energy = p.energy ∧
    (Item.use it p).1.mood = p.mood ∧ (Item.use it p).2 ≠ "" := by
  have he : Item.use it p = (p, p.name ++ "は" ++ it.name ++ "を使った") := by
    unfold Item.use
    rw [if_neg h1, if_neg h2, if_neg h3, if_neg h4]
  refine ⟨he, by rw [he], by rw [he], by rw [he], ?_⟩
  rw [he]
  intro hc
  have hl := congrArg String.length hc
  rw [String.length_append, String.length_append, String.length_append] at hl
  have l1 : ("は" : String).length = 1 := rfl
  have l2 : ("を使った" : String).length = 4 := rfl
  have l3 : ("" : String).length = 0 := rfl
  omega

theorem c9_witness :
    itemWeird.effect_type ≠ "hp" ∧
    (Item.use itemWeird agentP =
        (agentP, agentP.name ++ "は" ++ itemWeird.name ++ "を使った") ∧
      (Item.use itemWeird agentP).1.hp = agentP.hp ∧
      (Item.use itemWeird agentP).1.energy = agentP.energy ∧
      (Item.use itemWeird agentP).1.mood = agentP.mood ∧
      (Item.use itemWeird agentP).2 ≠ "") :=
  ⟨by decide,
   c9_unknown_effect itemWeird agentP (by decide) (by decide) (by decide) (by decide)⟩

/-- Claim C10: get_recent_logs returns the most recent n log entries in order
for n at least 1 (the length-n suffix of the event log, the whole log when
fewer than n entries exist), but for n = 0 it returns the entire log. -/
theorem c10_get_recent_logs (e : Engine) (n : ℕ) :
    (1 ≤ n → get_recent_logs e n = e.event_log.drop (e.event_log.length - n) ∧
      (get_recent_logs e n).length = min n e.event_log.length) ∧
    (n = 0 → get_recent_logs e n = e.event_log) := by
  constructor
  · intro hn
    have hneg : (-(n : ℤ)) < 0 := by omega
    have heq : get_recent_logs e n = e.event_log.drop (e.event_log.length - n) := by
      unfold get_recent_logs pySliceFrom
      rw [if_pos hneg]
      congr 1
      simp
    refine ⟨heq, ?_⟩
    rw [heq, List.length_drop]
    omega
  · intro hn
    subst hn
    unfold get_recent_logs pySliceFrom
    norm_num

theorem c10_witness :
    get_recent_logs engineLogs 2 = ["x2", "x3"] ∧
    get_recent_logs engineLogs 0 = ["x1", "x2", "x3"] := by
  have h2 := (c10_get_recent_logs engineLogs 2).1 (by norm_num)
  have h0 := (c10_get_recent_logs engineLogs 0).2 rfl
  refine ⟨?_, h0⟩
  rw [h2.1]
  rfl

/-- Claim C5: with a failing narrator, a forced battle resolution between two
agents at hp 100 and mutual relationship 0 deterministically ends with hp 85
for both, relationship -5 from each toward the other, and the single generic
log line. -/
theorem c5_battle_fallback (c : List String) (p1 p2 : Pokemon) (rng : Rng)
    (h1 : p1.hp = 100) (h2 : p2.hp = 100)
    (h3 : get_relationship p1 p2.key = 0) (h4 : get_relationship p2 p1.key = 0) :
    ∃ q1 q2 rng2,
      simulate_battle (Except.ok c) (Except.error ()) p1 p2 rng =
        Except.ok (q1, q2,
          ["⚔️ " ++ p1.name ++ "と" ++ p2.name ++ "が戦った！"],
          "Battle: " ++ p1.name ++ " vs " ++ p2.name, rng2) ∧
      q1.hp = 85 ∧ q2.hp = 85 ∧
      get_relationship q1 p2.key = -5 ∧ get_relationship q2 p1.key = -5 := by
  unfold get_relationship at h3 h4
  refine ⟨_, _, rng, rfl, ?_, ?_, ?_, ?_⟩
  · simp [update_relationship, take_damage, h1]
  · simp [update_relationship, take_damage, h2]
  · simp [get_relationship, update_relationship, take_damage, h3]
  · simp [get_relationship, update_relationship, take_damage, h4]

theorem c5_witness :
    agentP.hp = 100 ∧ agentQ.hp = 100 ∧
    get_relationship agentP agentQ.key = 0 ∧
    get_relationship agentQ agentP.key = 0 ∧
    (∃ q1 q2 rng2,
      simulate_battle (Except.ok []) (Except.error ()) agentP agentQ ⟨[], []⟩ =
        Except.ok (q1, q2,
          ["⚔️ " ++ agentP.name ++ "と" ++ agentQ.name ++ "が戦った！"],
          "Battle: " ++ agentP.name ++ " vs " ++ agentQ.name, rng2) ∧
      q1.hp = 85 ∧ q2.hp = 85 ∧
      get_relationship q1 agentQ.key = -5 ∧ get_relationship q2 agentP.key = -5) :=
  ⟨rfl, rfl, rfl, rfl,
   c5_battle_fallback [] agentP agentQ ⟨[], []⟩ rfl rfl rfl rfl⟩

/-- Claim C6: a friendship resolution with a succeeding narrator raises each
agent's relationship toward the other by 10 clamped into [-100, 100], sets both
moods to happy, and sets each hp to min(100, hp + 5). -/
theorem c6_friendship_success (c : List String) (s : String) (p1 p2 : Pokemon)
    (rng : Rng) :
    ∃ q1 q2 ls ev rng2,
      simulate_friendship (Except.ok c) (Except.ok s) p1 p2 rng =
        Except.ok (q1, q2, ls, ev, rng2) ∧
      get_relationship q1 p2.key =
        max (-100) (min 100 (get_relationship p1 p2.key + 10)) ∧
      get_relationship q2 p1.key =
        max (-100) (min 100 (get_relationship p2 p1.key + 10)) ∧
      q1.mood = "happy" ∧ q2.mood = "happy" ∧
      q1.hp = min 100 (p1.hp + 5) ∧ q2.hp = min 100 (p2.hp + 5) := by
  refine ⟨_, _, _, _, rng, rfl, ?_, ?_, ?_, ?_, ?_, ?_⟩
  · simp [get_relationship, update_relationship, heal]
  · simp [get_relationship, update_relationship, heal]
  · simp only [heal]
    split <;> rfl
  · simp only [heal]
    split <;> rfl
  · simp [heal, update_relationship]
  · simp [heal, update_relationship]

theorem use_inventory (it : Item) (p : Pokemon) :
    (Item.use it p).1.inventory = p.inventory := by
  unfold Item.use
  split_ifs <;> rfl

theorem use_item_valid (p : Pokemon) (i : ℕ) (h : i < p.inventory.length) :
    (use_item p i).2.isSome ∧
    (use_item p i).1.inventory = p.inventory.eraseIdx i := by
  unfold use_item
  rw [dif_pos h]
  exact ⟨rfl, use_inventory _ _⟩

theorem auto_use_item_cases (p : Pokemon) :
    (∃ i, i < p.inventory.length ∧ auto_use_item p = use_item p i) ∨
      auto_use_item p = (p, none) := by
  rcases hA : (if p.hp ≤ 50 then p.inventory.findIdx? isHpItem else none) with _ | i
  · rcases hB : (if p.energy ≤ 30 then p.inventory.findIdx? isEnergyItem else none)
      with _ | j
    · rcases hC : (if p.mood = "angry" ∨ p.mood = "tired" then
          p.inventory.findIdx? isMoodItem else none) with _ | k
      · right
        unfold auto_use_item
        rw [hA, hB, hC]
      · left
        have hsome : p.inventory.findIdx? isMoodItem = some k := by
          by_cases h : p.mood = "angry" ∨ p.mood = "tired"
          · rwa [if_pos h] at hC
          · rw [if_neg h] at hC; cases hC
        refine ⟨k, findIdx?_lt_length _ _ _ hsome, ?_⟩
        unfold auto_use_item
        rw [hA, hB, hC]
    · left
      have hsome : p.inventory.findIdx? isEnergyItem = some j := by
        by_cases h : p.energy ≤ 30
        · rwa [if_pos h] at hB
        · rw [if_neg h] at hB; cases hB
      refine ⟨j, findIdx?_lt_length _ _ _ hsome, ?_⟩
      unfold auto_use_item
      rw [hA, hB]
  · left
    have hsome : p.inventory.findIdx? isHpItem = some i := by
      by_cases h : p.hp ≤ 50
      · rwa [if_pos h] at hA
      · rw [if_neg h] at hA; cases hA
    refine ⟨i, findIdx?_lt_length _ _ _ hsome, ?_⟩
    unfold auto_use_item
    rw [hA]

/-- Claim C7 amended: the three auto_use_item rules fall through — rule 1 fires
only when hp is at most 50 AND a hp or mixed item is held; otherwise rule 2 is
still checked (energy at most 30 and an energy or mixed item held), otherwise
rule 3 (bad mood and a mood item held); if no rule both matches and finds a
qualifying item, no item is used and the agent is unchanged; at most one item
is consumed per call. -/
theorem c7_amended (p : Pokemon) :
    (∀ i, p.hp ≤ 50 → p.inventory.findIdx? isHpItem = some i →
        auto_use_item p = use_item p i) ∧
    ((50 < p.hp ∨ p.inventory.findIdx? isHpItem = none) →
      ∀ i, p.energy ≤ 30 → p.inventory.findIdx? isEnergyItem = some i →
        auto_use_item p = use_item p i) ∧
    ((50 < p.hp ∨ p.inventory.findIdx? isHpItem = none) →
      (30 < p.energy ∨ p.inventory.findIdx? isEnergyItem = none) →
      ∀ i, (p.mood = "angry" ∨ p.mood = "tired") →
        p.inventory.findIdx? isMoodItem = some i →
        auto_use_item p = use_item p i) ∧
    ((50 < p.hp ∨ p.inventory.findIdx? isHpItem = none) →
      (30 < p.energy ∨ p.inventory.findIdx? isEnergyItem = none) →
      (¬ (p.mood = "angry" ∨ p.mood = "tired") ∨
        p.inventory.findIdx? isMoodItem = none) →
      auto_use_item p = (p, none)) ∧
    ((auto_use_item p).2 = none → (auto_use_item p).1 = p) ∧
    ((auto_use_item p).2.isSome →
      (auto_use_item p).1.inventory.length + 1 = p.inventory.length) := by
  have hfirst : ∀ (h : 50 < p.hp ∨ p.inventory.findIdx? isHpItem = none),
      (if p.hp ≤ 50 then p.inventory.findIdx? isHpItem else none) = none := by
    intro h
    rcases h with h | h
    · rw [if_neg (by omega)]
    · split_ifs <;> simp [h]
  have hsecond : ∀ (h : 30 < p.energy ∨ p.inventory.findIdx? isEnergyItem = none),
      (if p.energy ≤ 30 then p.inventory.findIdx? isEnergyItem else none) = none := by
    intro h
    rcases h with h | h
    · rw [if_neg (by omega)]
    · split_ifs <;> simp [h]
  have hthird : ∀ (h : ¬ (p.mood = "angry" ∨ p.mood = "tired") ∨
        p.inventory.findIdx? isMoodItem = none),
      (if p.mood = "angry" ∨ p.mood = "tired" then
        p.inventory.findIdx? isMoodItem else none) = none := by
    intro h
    rcases h with h | h
    · rw [if_neg h]
    · split_ifs <;> simp [h]
  refine ⟨?_, ?_, ?_, ?_, ?_, ?_⟩
  · intro i h50 hidx
    unfold auto_use_item
    rw [if_pos h50, hidx]
  · intro h1 i h30 hidx
    unfold auto_use_item
    rw [hfirst h1, if_pos h30, hidx]
  · intro h1 h2 i hm hidx
    unfold auto_use_item
    rw [hfirst h1, hsecond h2, if_pos hm, hidx]
  · intro h1 h2 h3
    unfold auto_use_item
    rw [hfirst h1, hsecond h2, hthird h3]
  · intro hnone
    rcases auto_use_item_cases p with ⟨i, hi, heq⟩ | heq
    · rw [heq] at hnone
      have := (use_item_valid p i hi).1
      rw [hnone] at this
      cases this
    · rw [heq]
  · intro hsome2
    rcases auto_use_item_cases p with ⟨i, hi, heq⟩ | heq
    · rw [heq, (use_item_valid p i hi).2, List.length_eraseIdx]
      simp only [hi, if_pos]
      omega
    · rw [heq] at hsome2
      simp at hsome2

/-- Claim C7 counterexample: the claim as stated says that when hp is at most
50 and no hp or mixed item is held, no item is used (rule 1 matched, no
qualifying item, absent result).  The source falls through to rule 2 instead:
agentA (hp 40, energy 20, holding only an energy berry) consumes it. -/
theorem c7_counterexample :
    ¬ (∀ p : Pokemon, p.hp ≤ 50 →
        (∀ it ∈ p.inventory, ¬ (it.effect_type = "hp" ∨ it.effect_type = "mixed")) →
        (auto_use_item p).2 = none) := by
  intro h
  have hA := h agentA (by decide) (by decide)
  have heval : (auto_use_item agentA).2 = some "AはEnergyが30回復した！" := by decide
  rw [heval] at hA
  cases hA

theorem c7_witness :
    agentB.hp ≤ 50 ∧ agentB.inventory.findIdx? isHpItem = some 0 ∧
    auto_use_item agentB = use_item agentB 0 :=
  ⟨by decide, by decide, (c7_amended agentB).1 0 (by decide) (by decide)⟩

/-- Claim C8: check_pickup scans the field items in insertion order and
removes and returns the first item strictly within pickup distance of the
agent; when several items qualify the lowest insertion index wins, at most one
item is removed, and when none qualifies the field list is returned unchanged
with an absent result. -/
theorem c8_check_pickup (pos : ℝ × ℝ) (pd : ℝ) :
    (∀ items : List Item, (∀ x ∈ items, ¬ withinPickup pos pd x) →
        check_pickup pos pd items = (none, items)) ∧
    (∀ (l1 l2 : List Item) (it : Item), (∀ x ∈ l1, ¬ withinPickup pos pd x) →
        withinPickup pos pd it →
        check_pickup pos pd (l1 ++ it :: l2) = (some it, l1 ++ l2)) := by
  have hnone : ∀ items : List Item, (∀ x ∈ items, ¬ withinPickup pos pd x) →
      check_pickup pos pd items = (none, items) := by
    intro items
    induction items with
    | nil => intro _; rfl
    | cons a t ih =>
      intro h
      have ha := h a (by simp)
      have ht := ih fun x hx => h x (by simp [hx])
      unfold check_pickup
      rcases hpos : a.position with _ | q
      · simp [ht]
      · have hne : ¬ Real.sqrt ((pos.1 - q.1) ^ 2 + (pos.2 - q.2) ^ 2) < pd :=
          fun hlt => ha ⟨q, hpos, hlt⟩
        simp [hne, ht]
  refine ⟨hnone, ?_⟩
  intro l1 l2 it h1 hit
  induction l1 with
  | nil =>
    obtain ⟨q, hq, hlt⟩ := hit
    simp only [List.nil_append]
    unfold check_pickup
    rw [hq]
    simp [hlt]
  | cons a t ih =>
    have ha := h1 a (by simp)
    have hih := ih fun x hx => h1 x (by simp [hx])
    simp only [List.cons_append]
    unfold check_pickup
    rcases hpos : a.position with _ | q
    · simp [hih]
    · have hne : ¬ Real.sqrt ((pos.1 - q.1) ^ 2 + (pos.2 - q.2) ^ 2) < pd :=
        fun hlt => ha ⟨q, hpos, hlt⟩
      simp [hne, hih]

theorem c8_witness :
    withinPickup ((0 : ℝ), (0 : ℝ)) 0.6 itemX ∧
    check_pickup ((0 : ℝ), (0 : ℝ)) 0.6 [itemX, itemY] = (some itemX, [itemY]) := by
  have hwin : withinPickup ((0 : ℝ), (0 : ℝ)) 0.6 itemX := by
    refine ⟨((0 : ℝ), (0 : ℝ)), rfl, ?_⟩
    have hz : ((0 : ℝ) - 0) ^ 2 + ((0 : ℝ) - 0) ^ 2 = 0 := by norm_num
    rw [hz, Real.sqrt_zero]
    norm_num
  have hmain := (c8_check_pickup ((0 : ℝ), (0 : ℝ)) 0.6).2 [] [itemY] itemX
    (by simp) hwin
  exact ⟨hwin, by simpa using hmain⟩

theorem getD_mem_or {α : Type} (l : List α) (i : ℕ) (d : α) :
    l.getD i d ∈ l ∨ l.getD i d = d := by
  induction l generalizing i with
  | nil => right; cases i <;> rfl
  | cons a t ih =>
    cases i with
    | zero => left; simp
    | succ n =>
      rw [List.getD_cons_succ]
      rcases ih n with h | h
      · exact Or.inl (List.mem_cons_of_mem _ h)
      · exact Or.inr h

theorem set_preserve {α : Type} (P : α → Prop) (l : List α) (i : ℕ) (a : α)
    (hl : ∀ x ∈ l, P x) (ha : P a) : ∀ x ∈ l.set i a, P x := by
  intro x hx
  rcases List.mem_or_eq_of_mem_set hx with h | h
  · exact hl x h
  · rwa [h]

theorem getD_preserve {α : Type} (P : α → Prop) (l : List α) (i : ℕ) (d : α)
    (hl : ∀ x ∈ l, P x) (hd : P d) : P (l.getD i d) := by
  rcases getD_mem_or l i d with h | h
  · exact hl _ h
  · rwa [h]

theorem set_getD_self {α : Type} (l : List α) (i : ℕ) (d : α) :
    l.set i (l.getD i d) = l := by
  induction l generalizing i with
  | nil => rfl
  | cons a t ih =>
    cases i with
    | zero => simp
    | succ n =>
      show (a :: t).set (n + 1) ((a :: t).getD (n + 1) d) = a :: t
      rw [List.getD_cons_succ, List.set_cons_succ, ih n]

theorem foldE_cons_ok {σ α ε : Type} (f : σ → α → Except ε σ) (s s2 : σ) (a : α)
    (l : List α) (h : f s a = Except.ok s2) :
    foldE f s (a :: l) = foldE f s2 l := by
  show (match f s a with
    | Except.error e => Except.error e
    | Except.ok s3 => foldE f s3 l) = foldE f s2 l
  rw [h]

theorem foldE_ok_of_all {σ α : Type} (f : σ → α → Except Unit σ)
    (h : ∀ s a, ∃ s2, f s a = Except.ok s2) (l : List α) :
    ∀ s, ∃ s2, foldE f s l = Except.ok s2 := by
  induction l with
  | nil => intro s; exact ⟨s, rfl⟩
  | cons a t ih =>
    intro s
    obtain ⟨s1, h1⟩ := h s a
    obtain ⟨s2, h2⟩ := ih s1
    exact ⟨s2, by rw [foldE_cons_ok f s s1 a t h1, h2]⟩

theorem foldE_preserve {σ α : Type} (P : σ → Prop) (f : σ → α → Except Unit σ)
    (h : ∀ s a s2, P s → f s a = Except.ok s2 → P s2) (l : List α) :
    ∀ s s2, P s → foldE f s l = Except.ok s2 → P s2 := by
  induction l with
  | nil =>
    intro s s2 hs he
    cases he
    exact hs
  | cons a t ih =>
    intro s s2 hs he
    unfold foldE at he
    rcases hfa : f s a with e | s1
    · rw [hfa] at he; cases he
    · rw [hfa] at he
      exact ih s1 s2 (h s a s1 hs hfa) he

theorem foldl_preserve {σ α : Type} (P : σ → Prop) (f : σ → α → σ)
    (h : ∀ s a, P s → P (f s a)) (l : List α) :
    ∀ s, P s → P (List.foldl f s l) := by
  induction l with
  | nil => intro s hs; exact hs
  | cons a t ih => intro s hs; exact ih (f s a) (h s a hs)

theorem foldl_log_event_pokemons (l : List String) (e : Engine) :
    (List.foldl log_event e l).pokemons = e.pokemons := by
  induction l generalizing e with
  | nil => rfl
  | cons a t ih => exact ih (log_event e a)

theorem foldl_log_event_items (l : List String) (e : Engine) :
    (List.foldl log_event e l).items_on_field = e.items_on_field := by
  induction l generalizing e with
  | nil => rfl
  | cons a t ih => exact ih (log_event e a)

theorem POK_default : POK (default : Pokemon) := by
  refine ⟨⟨show (0 : ℤ) ≤ 100 by norm_num, show (100 : ℤ) ≤ 100 by norm_num,
    show (0 : ℤ) ≤ 100 by norm_num, show (100 : ℤ) ≤ 100 by norm_num⟩, ?_⟩
  intro x hx
  cases hx

theorem take_damage_VOK (p : Pokemon) (d : ℤ) (hd : 0 ≤ d) (h : VOK p) :
    VOK (take_damage p d) := by
  obtain ⟨h1, h2, h3, h4⟩ := h
  exact ⟨le_max_left _ _, max_le (by norm_num) (by omega),
         le_max_left _ _, max_le (by norm_num) (by omega)⟩

theorem heal_VOK (p : Pokemon) (a : ℤ) (ha : 0 ≤ a) (h : VOK p) :
    VOK (heal p a) := by
  obtain ⟨h1, h2, h3, h4⟩ := h
  exact ⟨le_min (by norm_num) (by omega), min_le_left _ _, h3, h4⟩

theorem rest_VOK (p : Pokemon) (h : VOK p) : VOK (rest p) := by
  obtain ⟨h1, h2, h3, h4⟩ := h
  exact ⟨le_min (by norm_num) (by omega), min_le_left _ _,
         le_min (by norm_num) (by omega), min_le_left _ _⟩

theorem use_VOK (it : Item) (p : Pokemon) (hv : 0 ≤ it.effect_value)
    (h : VOK p) : VOK (Item.use it p).1 := by
  obtain ⟨h1, h2, h3, h4⟩ := h
  have hfd : 0 ≤ it.effect_value.fdiv 2 := Int.fdiv_nonneg hv (by norm_num)
  unfold Item.use
  split_ifs
  · exact heal_VOK p _ hv ⟨h1, h2, h3, h4⟩
  · exact ⟨h1, h2, le_min (by norm_num) (by omega), min_le_left _ _⟩
  · exact ⟨h1, h2, h3, h4⟩
  · exact ⟨h1, h2, h3, h4⟩
  · have hh := heal_VOK p _ hfd ⟨h1, h2, h3, h4⟩
    obtain ⟨g1, g2, g3, g4⟩ := hh
    exact ⟨g1, g2, le_min (by norm_num) (by omega), min_le_left _ _⟩
  · exact ⟨h1, h2, h3, h4⟩

theorem take_damage_POK (p : Pokemon) (d : ℤ) (hd : 0 ≤ d) (h : POK p) :
    POK (take_damage p d) := ⟨take_damage_VOK p d hd h.1, h.2⟩

theorem heal_POK (p : Pokemon) (a : ℤ) (ha : 0 ≤ a) (h : POK p) :
    POK (heal p a) := ⟨heal_VOK p a ha h.1, h.2⟩

theorem rest_POK (p : Pokemon) (h : POK p) : POK (rest p) :=
  ⟨rest_VOK p h.1, h.2⟩

theorem use_POK (it : Item) (p : Pokemon) (hv : 0 ≤ it.effect_value)
    (h : POK p) : POK (Item.use it p).1 := by
  refine ⟨use_VOK it p hv h.1, ?_⟩
  have := use_inventory it p
  unfold ItemsOK
  rw [this]
  exact h.2

theorem update_position_POK (p : Pokemon) (dx dy : ℝ) (h : POK p) :
    POK (update_position p dx dy) := h

theorem move_towards_POK (p : Pokemon) (t : ℝ × ℝ) (s : ℝ) (h : POK p) :
    POK (move_towards p t s) := by
  simp only [move_towards]
  split_ifs <;> exact h

theorem move_away_POK (p : Pokemon) (t : ℝ × ℝ) (s : ℝ) (h : POK p) :
    POK (move_away p t s) := by
  simp only [move_away]
  split_ifs <;> exact h

theorem random_walk_POK (p : Pokemon) (s : ℝ) (rng : Rng) (h : POK p) :
    POK (random_walk p s rng).1 := h

theorem learn_move_POK (p : Pokemon) (m : String) (h : POK p) :
    POK (learn_move p m) := by
  unfold learn_move
  split_ifs <;> exact h

theorem update_relationship_POK (p : Pokemon) (k : String) (c : ℤ) (h : POK p) :
    POK (update_relationship p k c) := h

theorem use_item_POK (p : Pokemon) (i : ℕ) (h : POK p) : POK (use_item p i).1 := by
  unfold use_item
  split_ifs with hi
  · have hit : p.inventory.get ⟨i, hi⟩ ∈ p.inventory := List.get_mem p.inventory i hi
    have hv : 0 ≤ (p.inventory.get ⟨i, hi⟩).effect_value := h.2 _ hit
    have hp2 : POK { p with inventory := p.inventory.eraseIdx i } := by
      refine ⟨h.1, ?_⟩
      intro x hx
      exact h.2 x ((List.eraseIdx_sublist p.inventory i).mem hx)
    exact use_POK _ _ hv hp2
  · exact h

theorem auto_use_item_POK (p : Pokemon) (h : POK p) : POK (auto_use_item p).1 := by
  rcases auto_use_item_cases p with ⟨i, _, heq⟩ | heq
  · rw [heq]; exact use_item_POK p i h
  · rw [heq]; exact h

theorem add_item_POK (p : Pokemon) (it : Item) (hv : 0 ≤ it.effect_value)
    (h : POK p) : POK (add_item p it).1 := by
  unfold add_item
  split_ifs with hlen
  · refine ⟨h.1, ?_⟩
    intro x hx
    rcases List.mem_append.mp hx with hx | hx
    · exact h.2 x hx
    · rw [List.mem_singleton.mp hx]
      exact hv
  · exact h

theorem nextInt_nonneg (a b : ℤ) (ha : 0 ≤ a) (hab : a ≤ b) (rng : Rng) :
    0 ≤ (nextInt a b rng).1 := by
  rcases rng with ⟨fs, is⟩
  rcases is with _ | ⟨i, is⟩
  · exact ha
  · have := Int.emod_nonneg (i - a) (by omega : (b - a + 1) ≠ 0)
    show 0 ≤ a + (i - a) % (b - a + 1)
    omega

theorem simulate_battle_POK (ctx : Except Unit (List String))
    (narr : Except Unit String) (p1 p2 : Pokemon) (rng : Rng)
    (q1 q2 : Pokemon) (ls : List String) (ev : String) (rng2 : Rng)
    (h : simulate_battle ctx narr p1 p2 rng = Except.ok (q1, q2, ls, ev, rng2))
    (h1 : POK p1) (h2 : POK p2) : POK q1 ∧ POK q2 := by
  unfold simulate_battle at h
  rcases ctx with e | c
  · cases h
  · rcases narr with e | r
    · cases h
      exact ⟨take_damage_POK p1 15 (by norm_num) h1,
             take_damage_POK p2 15 (by norm_num) h2⟩
    · cases h
      exact ⟨take_damage_POK p1 _ (nextInt_nonneg 10 25 (by norm_num) (by norm_num) _) h1,
             take_damage_POK p2 _ (nextInt_nonneg 10 25 (by norm_num) (by norm_num) _) h2⟩

theorem simulate_friendship_POK (ctx : Except Unit (List String))
    (narr : Except Unit String) (p1 p2 : Pokemon) (rng : Rng)
    (q1 q2 : Pokemon) (ls : List String) (ev : String) (rng2 : Rng)
    (h : simulate_friendship ctx narr p1 p2 rng = Except.ok (q1, q2, ls, ev, rng2))
    (h1 : POK p1) (h2 : POK p2) : POK q1 ∧ POK q2 := by
  unfold simulate_friendship at h
  rcases ctx with e | c
  · cases h
  · rcases narr with e | r
    · cases h
      exact ⟨h1, h2⟩
    · cases h
      exact ⟨heal_POK _ 5 (by norm_num) h1, heal_POK _ 5 (by norm_num) h2⟩

theorem handle_interaction_POK (ctx : Except Unit (List String))
    (narr : Except Unit String) (p1 p2 : Pokemon) (rng : Rng)
    (q1 q2 : Pokemon) (ls : List String) (ev : Option String) (rng2 : Rng)
    (h : handle_interaction ctx narr p1 p2 rng = Except.ok (q1, q2, ls, ev, rng2))
    (h1 : POK p1) (h2 : POK p2) : POK q1 ∧ POK q2 := by
  simp only [handle_interaction] at h
  split_ifs at h
  · rcases hb : simulate_battle ctx narr p1 p2 (nextFloat rng).2 with e | ⟨a, b, l, v, r⟩
    · rw [hb] at h; cases h
    · rw [hb] at h; cases h
      exact simulate_battle_POK _ _ _ _ _ _ _ _ _ _ hb h1 h2
  · cases h; exact ⟨h1, h2⟩
  · rcases hf : simulate_friendship ctx narr p1 p2 (nextFloat rng).2 with e | ⟨a, b, l, v, r⟩
    · rw [hf] at h; cases h
    · rw [hf] at h; cases h
      exact simulate_friendship_POK _ _ _ _ _ _ _ _ _ _ hf h1 h2
  · cases h; exact ⟨h1, h2⟩
  · rcases hb : simulate_battle ctx narr p1 p2 (nextFloat rng).2 with e | ⟨a, b, l, v, r⟩
    · rw [hb] at h; cases h
    · rw [hb] at h; cases h
      exact simulate_battle_POK _ _ _ _ _ _ _ _ _ _ hb h1 h2
  · rcases hf : simulate_friendship ctx narr p1 p2 (nextFloat rng).2 with e | ⟨a, b, l, v, r⟩
    · rw [hf] at h; cases h
    · rw [hf] at h; cases h
      exact simulate_friendship_POK _ _ _ _ _ _ _ _ _ _ hf h1 h2
  · cases h; exact ⟨h1, h2⟩

theorem handle_awareness_POK (p1 p2 : Pokemon) (h : POK p1) :
    POK (handle_awareness p1 p2) := by
  simp only [handle_awareness]
  split_ifs
  · exact move_towards_POK _ _ _ h
  · exact move_towards_POK _ _ _ h
  · exact move_away_POK _ _ _ h
  · exact h

theorem process_pair_POK (ctx : Except Unit (List String))
    (narr : Except Unit String) (s : PairPhaseState) (ij : ℕ × ℕ)
    (s2 : PairPhaseState) (h : process_pair ctx narr s ij = Except.ok s2)
    (hs : ∀ p ∈ s.pokemons, POK p) : ∀ p ∈ s2.pokemons, POK p := by
  have hp1 : POK (s.pokemons.getD ij.1 default) :=
    getD_preserve POK _ _ _ hs POK_default
  have hp2 : POK (s.pokemons.getD ij.2 default) :=
    getD_preserve POK _ _ _ hs POK_default
  simp only [process_pair] at h
  split_ifs at h
  · rcases hint : handle_interaction ctx narr (s.pokemons.getD ij.1 default)
        (s.pokemons.getD ij.2 default) s.rng with e | ⟨a, b, l, v, r⟩
    · rw [hint] at h; cases h
    · rw [hint] at h; cases h
      have hab := handle_interaction_POK _ _ _ _ _ _ _ _ _ _ hint hp1 hp2
      exact set_preserve POK _ _ _ (set_preserve POK _ _ _ hs hab.1) hab.2
  · cases h
    exact set_preserve POK _ _ _ hs (handle_awareness_POK _ _ hp1)
  · cases h
    exact hs

theorem pairwise_phase_POK (ctx : Except Unit (List String))
    (narr : Except Unit String) (ps : List Pokemon) (rng : Rng)
    (pw : PairPhaseState) (h : pairwise_phase ctx narr ps rng = Except.ok pw)
    (hp : ∀ p ∈ ps, POK p) : ∀ p ∈ pw.pokemons, POK p :=
  foldE_preserve (fun s => ∀ p ∈ s.pokemons, POK p) (process_pair ctx narr)
    (fun s a s2 hs he => process_pair_POK ctx narr s a s2 he hs)
    (pairList ps.length) ⟨ps, [], [], [], rng⟩ pw hp h

theorem check_pickup_mem (pos : ℝ × ℝ) (pd : ℝ) :
    ∀ l : List Item,
      (∀ x ∈ (check_pickup pos pd l).2, x ∈ l) ∧
      (∀ it, (check_pickup pos pd l).1 = some it → it ∈ l) := by
  intro l
  induction l with
  | nil =>
    constructor
    · intro x hx
      cases hx
    · intro it h
      cases h
  | cons a t ih =>
    unfold check_pickup
    rcases hpos : a.position with _ | q
    · dsimp only
      refine ⟨?_, ?_⟩
      · intro x hx
        rcases List.mem_cons.mp hx with h | h
        · rw [h]; exact List.mem_cons_self _ _
        · exact List.mem_cons_of_mem _ (ih.1 x h)
      · intro it h
        exact List.mem_cons_of_mem _ (ih.2 it h)
    · dsimp only
      by_cases hlt : Real.sqrt ((pos.1 - q.1) ^ 2 + (pos.2 - q.2) ^ 2) < pd
      · rw [if_pos hlt]
        refine ⟨fun x hx => List.mem_cons_of_mem _ hx, ?_⟩
        intro it h
        cases h
        exact List.mem_cons_self _ _
      · rw [if_neg hlt]
        dsimp only
        refine ⟨?_, ?_⟩
        · intro x hx
          rcases List.mem_cons.mp hx with h | h
          · rw [h]; exact List.mem_cons_self _ _
          · exact List.mem_cons_of_mem _ (ih.1 x h)
        · intro it h
          exact List.mem_cons_of_mem _ (ih.2 it h)

theorem berry_nonneg (i : ℕ) :
    0 ≤ (BERRY_TYPES.getD i ("オレンのみ", "hp", 20)).2.2 := by
  rcases getD_mem_or BERRY_TYPES i ("オレンのみ", "hp", 20) with h | h
  · have hall : ∀ x ∈ BERRY_TYPES, 0 ≤ x.2.2 := by decide
    exact hall _ h
  · rw [h]
    norm_num

theorem create_random_berry_nonneg (rng : Rng) :
    0 ≤ (create_random_berry rng).1.effect_value :=
  berry_nonneg _

theorem spawn_item_ItemsOK (items : List Item) (rng : Rng) (h : ItemsOK items) :
    ItemsOK (spawn_item items rng).2.1 := by
  simp only [spawn_item]
  split_ifs with h5 hsp
  · exact h
  · intro x hx
    rcases List.mem_append.mp hx with hx | hx
    · exact h x hx
    · rw [List.mem_singleton.mp hx]
      exact create_random_berry_nonneg _
  · exact h

theorem practice_move_POK (p : Pokemon) (rng : Rng) (h : POK p) :
    POK (practice_move p rng).1 := by
  simp only [practice_move]
  split_ifs <;> first
    | exact h
    | exact learn_move_POK _ _ h

theorem handle_individual_action_POK (p : Pokemon) (rng : Rng) (h : POK p) :
    POK (handle_individual_action p rng).1 := by
  simp only [handle_individual_action]
  split_ifs <;> first
    | exact rest_POK p h
    | exact practice_move_POK _ _ (random_walk_POK _ _ _ h)
    | exact random_walk_POK _ _ _ h

theorem pickup_apply_POK (p1 : Pokemon) (o : Option Item)
    (ho : ∀ it, o = some it → 0 ≤ it.effect_value) (h1 : POK p1) :
    POK (pickup_apply p1 o).1 := by
  rcases o with _ | it
  · exact h1
  · have hv := ho it rfl
    simp only [pickup_apply]
    split_ifs
    · exact add_item_POK p1 it hv h1
    · exact use_POK _ _ hv (add_item_POK p1 it hv h1)

theorem process_individual_inv (s : IndivState) (i : ℕ)
    (hp : ∀ p ∈ s.pokemons, POK p) (hi : ItemsOK s.items) :
    (∀ p ∈ (process_individual s i).pokemons, POK p) ∧
    ItemsOK (process_individual s i).items := by
  have hp1 : POK (handle_individual_action (s.pokemons.getD i default) s.rng).1 :=
    handle_individual_action_POK _ _ (getD_preserve POK _ _ _ hp POK_default)
  have hpicked : ∀ it,
      (check_pickup (handle_individual_action (s.pokemons.getD i default) s.rng).1.position
        0.6 s.items).1 = some it → 0 ≤ it.effect_value :=
    fun it hx => hi it ((check_pickup_mem _ 0.6 s.items).2 it hx)
  have hafter := pickup_apply_POK _ _ hpicked hp1
  have hauto := auto_use_item_POK _ hafter
  constructor
  · exact set_preserve POK _ _ _ hp hauto
  · exact fun x hx => hi x ((check_pickup_mem _ 0.6 s.items).1 x hx)

theorem indiv_fold_inv (l : List ℕ) (s : IndivState)
    (h : (∀ p ∈ s.pokemons, POK p) ∧ ItemsOK s.items) :
    (∀ p ∈ (List.foldl process_individual s l).pokemons, POK p) ∧
    ItemsOK (List.foldl process_individual s l).items :=
  foldl_preserve (fun s => (∀ p ∈ s.pokemons, POK p) ∧ ItemsOK s.items)
    process_individual (fun s a hs => process_individual_inv s a hs.1 hs.2) l s h

theorem trigger_random_event_POK (scen : Except Unit (List String))
    (ps : List Pokemon) (rng : Rng) (ps2 : List Pokemon) (lines : List String)
    (ev : Option String) (rng2 : Rng)
    (h : trigger_random_event scen ps rng = Except.ok (ps2, lines, ev, rng2))
    (hp : ∀ p ∈ ps, POK p) : ∀ p ∈ ps2, POK p := by
  unfold trigger_random_event at h
  rcases scen with e | l
  · cases h
  · dsimp only at h
    by_cases h1 : l.isEmpty
    · rw [if_pos h1] at h
      cases h
      exact hp
    · rw [if_neg h1] at h
      by_cases h2 : 2 ≤ ps.length
      · rw [if_pos h2] at h
        cases h
        exact set_preserve POK _ _ _ hp
          (move_towards_POK _ _ _ (getD_preserve POK _ _ _ hp POK_default))
      · rw [if_neg h2] at h
        cases h
        exact hp

theorem simulate_battle_ok (c : List String) (narr : Except Unit String)
    (p1 p2 : Pokemon) (rng : Rng) :
    ∃ out, simulate_battle (Except.ok c) narr p1 p2 rng = Except.ok out := by
  unfold simulate_battle
  rcases narr with e | r
  · exact ⟨_, rfl⟩
  · exact ⟨_, rfl⟩

theorem simulate_friendship_ok (c : List String) (narr : Except Unit String)
    (p1 p2 : Pokemon) (rng : Rng) :
    ∃ out, simulate_friendship (Except.ok c) narr p1 p2 rng = Except.ok out := by
  unfold simulate_friendship
  rcases narr with e | r
  · exact ⟨_, rfl⟩
  · exact ⟨_, rfl⟩

theorem handle_interaction_ok (c : List String) (narr : Except Unit String)
    (p1 p2 : Pokemon) (rng : Rng) :
    ∃ out, handle_interaction (Except.ok c) narr p1 p2 rng = Except.ok out := by
  simp only [handle_interaction]
  split_ifs
  · obtain ⟨⟨a, b, l0, v, r⟩, hb⟩ := simulate_battle_ok c narr p1 p2 (nextFloat rng).2
    rw [hb]
    exact ⟨_, rfl⟩
  · exact ⟨_, rfl⟩
  · obtain ⟨⟨a, b, l0, v, r⟩, hf⟩ := simulate_friendship_ok c narr p1 p2 (nextFloat rng).2
    rw [hf]
    exact ⟨_, rfl⟩
  · exact ⟨_, rfl⟩
  · obtain ⟨⟨a, b, l0, v, r⟩, hb⟩ := simulate_battle_ok c narr p1 p2 (nextFloat rng).2
    rw [hb]
    exact ⟨_, rfl⟩
  · obtain ⟨⟨a, b, l0, v, r⟩, hf⟩ := simulate_friendship_ok c narr p1 p2 (nextFloat rng).2
    rw [hf]
    exact ⟨_, rfl⟩
  · exact ⟨_, rfl⟩

theorem process_pair_ok (c : List String) (narr : Except Unit String)
    (s : PairPhaseState) (ij : ℕ × ℕ) :
    ∃ s2, process_pair (Except.ok c) narr s ij = Except.ok s2 := by
  simp only [process_pair]
  split_ifs
  · obtain ⟨⟨a, b, l0, v, r⟩, hb⟩ := handle_interaction_ok c narr
      (s.pokemons.getD ij.1 default) (s.pokemons.getD ij.2 default) s.rng
    rw [hb]
    exact ⟨_, rfl⟩
  · exact ⟨_, rfl⟩
  · exact ⟨_, rfl⟩

theorem pairwise_phase_ok (c : List String) (narr : Except Unit String)
    (ps : List Pokemon) (rng : Rng) :
    ∃ pw, pairwise_phase (Except.ok c) narr ps rng = Except.ok pw :=
  foldE_ok_of_all _ (fun s a => process_pair_ok c narr s a) _ _

theorem pairwise_phase_ne_error (c : List String) (narr : Except Unit String)
    (ps : List Pokemon) (rng : Rng) (err : Unit) :
    pairwise_phase (Except.ok c) narr ps rng ≠ Except.error err := by
  obtain ⟨pw, hpw⟩ := pairwise_phase_ok c narr ps rng
  intro h
  rw [hpw] at h
  cases h

theorem trigger_random_event_ok (l : List String) (ps : List Pokemon) (rng : Rng) :
    ∃ out, trigger_random_event (Except.ok l) ps rng = Except.ok out := by
  simp only [trigger_random_event]
  split_ifs <;> exact ⟨_, rfl⟩

theorem trigger_random_event_ne_error (l : List String) (ps : List Pokemon)
    (rng : Rng) (err : Unit) :
    trigger_random_event (Except.ok l) ps rng ≠ Except.error err := by
  obtain ⟨out, hout⟩ := trigger_random_event_ok l ps rng
  intro h
  rw [hout] at h
  cases h

theorem step_always_ok (c l : List String) (narr : Except Unit String)
    (e : Engine) (rng : Rng) :
    ∃ out, step (Except.ok c) narr (Except.ok l) e rng = Except.ok out := by
  simp only [step]
  split
  · next err heq => exact absurd heq (pairwise_phase_ne_error c narr _ _ _)
  · next pw heq =>
    split
    · split
      · next err heq2 => exact absurd heq2 (trigger_random_event_ne_error l _ _ _)
      · next ps lines ev rng3 heq2 => exact ⟨_, rfl⟩
    · exact ⟨_, rfl⟩

/-- Claim C3: hp and energy stay within [0, 100] under every vitals mutation —
takeDamage with a non-negative amount, heal with a non-negative amount, rest,
and item effect application with a non-negative effect value, each clamping hp
and energy independently — and for every agent after every successful step()
call on a well-formed engine state. -/
theorem c3_invariants :
    (∀ (p : Pokemon) (d : ℤ), 0 ≤ d → VOK p → VOK (take_damage p d)) ∧
    (∀ (p : Pokemon) (a : ℤ), 0 ≤ a → VOK p → VOK (heal p a)) ∧
    (∀ p : Pokemon, VOK p → VOK (rest p)) ∧
    (∀ (it : Item) (p : Pokemon), 0 ≤ it.effect_value → VOK p →
      VOK (Item.use it p).1) ∧
    (∀ (ctx : Except Unit (List String)) (narr : Except Unit String)
      (scen : Except Unit (List String)) (e : Engine) (rng : Rng)
      (snap : Snapshot) (e2 : Engine) (rng2 : Rng), EngOK e →
      step ctx narr scen e rng = Except.ok (snap, e2, rng2) →
      (∀ p ∈ e2.pokemons, VOK p) ∧ ∀ p ∈ snap.pokemons_state, VOK p) := by
  refine ⟨take_damage_VOK, heal_VOK, rest_VOK, use_VOK, ?_⟩
  intro ctx narr scen e rng snap e2 rng2 hok hstep
  simp only [step, foldl_log_event_pokemons, foldl_log_event_items] at hstep
  split at hstep
  · cases hstep
  · next pw heq =>
    have hpw : ∀ p ∈ pw.pokemons, POK p :=
      pairwise_phase_POK _ _ _ _ _ heq hok.1
    have hitems0 : ItemsOK (spawn_item e.items_on_field rng).2.1 :=
      spawn_item_ItemsOK _ _ hok.2
    have hindiv := indiv_fold_inv (List.range pw.pokemons.length)
      { pokemons := pw.pokemons, items := (spawn_item e.items_on_field rng).2.1,
        lines := [], rng := pw.rng } ⟨hpw, hitems0⟩
    split at hstep
    · split at hstep
      · cases hstep
      · next ps lines ev rng3 heq2 =>
        cases hstep
        have hps : ∀ p ∈ ps, VOK p := by
          intro p hp
          exact (trigger_random_event_POK _ _ _ _ _ _ _ heq2 hindiv.1 p hp).1
        constructor
        · simp only [foldl_log_event_pokemons]
          exact hps
        · exact hps
    · cases hstep
      have hps : ∀ p ∈ (List.foldl process_individual
          { pokemons := pw.pokemons, items := (spawn_item e.items_on_field rng).2.1,
            lines := [], rng := pw.rng }
          (List.range pw.pokemons.length)).pokemons, VOK p := by
        intro p hp
        exact (hindiv.1 p hp).1
      constructor
      · simp only [foldl_log_event_pokemons]
        exact hps
      · exact hps

theorem c3_witness :
    EngOK engineE ∧
    ((0 : ℤ) ≤ 10 ∧ VOK agentP ∧ VOK (take_damage agentP 10)) ∧
    ∃ out, step (Except.ok []) (Except.ok "") (Except.ok []) engineE rngE =
        Except.ok out ∧ ∀ p ∈ out.2.1.pokemons, VOK p := by
  have hok : EngOK engineE := by
    constructor
    · intro p hp
      rcases List.mem_singleton.mp hp with rfl
      exact ⟨⟨by decide, by decide, by decide, by decide⟩,
             fun x hx => by cases hx⟩
    · intro x hx
      cases hx
  refine ⟨hok, ⟨by norm_num, ⟨by decide, by decide, by decide, by decide⟩,
    c3_invariants.1 agentP 10 (by norm_num)
      ⟨by decide, by decide, by decide, by decide⟩⟩, ?_⟩
  obtain ⟨out, hout⟩ := step_always_ok [] [] (Except.ok "") engineE rngE
  refine ⟨out, hout, ?_⟩
  exact (c3_invariants.2.2.2.2 _ _ _ _ _ out.1 out.2.1 out.2.2 hok hout).1

/-- Claim C1 counterexample: the claim says every collaborator failure during
battle resolution, friendship resolution or the random world event is caught
inside step() and step() always returns a snapshot.  But the context-source
scenario query of the random world event is not surrounded by any handler: with
a failing context source and a random-event roll of 1/20, step() propagates
the failure instead of returning a snapshot. -/
theorem c1_counterexample :
    ¬ (∀ (ctx : Except Unit (List String)) (narr : Except Unit String)
        (scen : Except Unit (List String)) (e : Engine) (rng : Rng),
        ∃ out, step ctx narr scen e rng = Except.ok out) := by
  intro h
  obtain ⟨out, hout⟩ :=
    h (Except.ok []) (Except.ok "") (Except.error ()) engineE rngE
  have hreal : step (Except.ok []) (Except.ok "") (Except.error ()) engineE rngE =
      Except.error () := by rfl
  rw [hreal] at hout
  cases hout

/-- Claim C1 amended: narrator failures during battle and friendship resolution
are caught at the call site, replaced by the deterministic fallback, and never
propagated out of step(); context-source failures are not caught (they escape
from battle resolution, friendship resolution and the random world event); and
step() returns a snapshot whenever the context source succeeds, regardless of
narrator behaviour. -/
theorem c1_amended (c l : List String) (narr : Except Unit String)
    (e : Engine) (rng : Rng) :
    ∃ out, step (Except.ok c) narr (Except.ok l) e rng = Except.ok out :=
  step_always_ok c l narr e rng

theorem sqrt_four : Real.sqrt 4 = 2 := by
  rw [show (4 : ℝ) = 2 ^ 2 by norm_num, Real.sqrt_sq (by norm_num : (0:ℝ) ≤ 2)]

theorem cex_d01 : distance_to cexA cexB = 2 := by
  have hsum : (cexB.position.1 - cexA.position.1) ^ 2 +
      (cexB.position.2 - cexA.position.2) ^ 2 = 4 := by
    norm_num [cexA, cexB]
  rw [distance_to, hsum, sqrt_four]

theorem cex_moveA : move_towards cexA cexB.position 0.2 = cexA2 := by
  simp only [move_towards]
  have hsum : (cexB.position.1 - cexA.position.1) ^ 2 +
      (cexB.position.2 - cexA.position.2) ^ 2 = 4 := by
    norm_num [cexA, cexB]
  rw [hsum, sqrt_four, if_pos (by norm_num : (0:ℝ) < 2)]
  simp only [update_position, cexA2, cexA, cexB]
  norm_num [min_def, max_def]

theorem cex_awareA : handle_awareness cexA cexB = cexA2 := by
  have hrel : get_relationship cexA cexB.key = -40 := rfl
  simp only [handle_awareness]
  rw [hrel, if_pos (by norm_num : (-40 : ℤ) < -30)]
  exact cex_moveA

theorem cex_step1 :
    process_pair (Except.ok []) (Except.ok "") ⟨cexPops, [], [], [], cexRng⟩ (0, 1) =
      Except.ok ⟨[cexA2, cexB, cexC], [], [], [(0, 1, Band.aware)], cexRng⟩ := by
  have hg0 : cexPops.getD 0 default = cexA := rfl
  have hg1 : cexPops.getD 1 default = cexB := rfl
  simp only [process_pair]
  rw [hg0, hg1, cex_d01,
      if_neg (by norm_num : ¬ (2 : ℝ) < 1.5), if_pos (by norm_num : (2 : ℝ) < 3.0),
      cex_awareA]
  simp [cexPops]

theorem cex_interact_AC :
    handle_interaction (Except.ok []) (Except.ok "") cexA2 cexC cexRng =
      Except.ok (cexA2, cexC, [], none, ⟨[mkRat 9 10], []⟩) := by
  have hrel1 : get_relationship cexA2 cexC.key = 0 := rfl
  have hrel2 : get_relationship cexC cexA2.key = 0 := rfl
  simp only [handle_interaction]
  rw [hrel1, hrel2,
      if_neg (by norm_num : ¬ ((0 : ℤ) < -30 ∨ (0 : ℤ) < -30)),
      if_neg (by norm_num : ¬ ((30 : ℤ) < 0 ∨ (30 : ℤ) < 0)),
      show nextFloat cexRng = (mkRat 9 10, ⟨[mkRat 9 10], []⟩) from rfl]
  rw [if_neg (by norm_num [battle_probability, Rat.mkRat_eq_div]),
      if_neg (by norm_num [battle_probability, friendship_probability, Rat.mkRat_eq_div])]

theorem cex_d02' : distance_to cexA2 cexC < 1.5 := by
  have hsum : (cexC.position.1 - cexA2.position.1) ^ 2 +
      (cexC.position.2 - cexA2.position.2) ^ 2 = 1.96 := by
    norm_num [cexA2, cexA, cexC]
  rw [distance_to, hsum]
  exact (Real.sqrt_lt' (by norm_num)).mpr (by norm_num)

theorem cex_step2 :
    process_pair (Except.ok []) (Except.ok "")
      ⟨[cexA2, cexB, cexC], [], [], [(0, 1, Band.aware)], cexRng⟩ (0, 2) =
      Except.ok ⟨[cexA2, cexB, cexC], [], [],
        [(0, 1, Band.aware), (0, 2, Band.interact)], ⟨[mkRat 9 10], []⟩⟩ := by
  have hg0 : ([cexA2, cexB, cexC] : List Pokemon).getD 0 default = cexA2 := rfl
  have hg2 : ([cexA2, cexB, cexC] : List Pokemon).getD 2 default = cexC := rfl
  simp only [process_pair]
  rw [hg0, hg2, if_pos cex_d02', cex_interact_AC]
  simp

theorem cex_d12' : distance_to cexB cexC < 1.5 := by
  have hsum : (cexC.position.1 - cexB.position.1) ^ 2 +
      (cexC.position.2 - cexB.position.2) ^ 2 = 0.16 := by
    norm_num [cexB, cexC]
  rw [distance_to, hsum]
  exact (Real.sqrt_lt' (by norm_num)).mpr (by norm_num)

theorem cex_interact_BC :
    handle_interaction (Except.ok []) (Except.ok "") cexB cexC ⟨[mkRat 9 10], []⟩ =
      Except.ok (cexB, cexC, [], none, ⟨[], []⟩) := by
  have hrel1 : get_relationship cexB cexC.key = 0 := rfl
  have hrel2 : get_relationship cexC cexB.key = 0 := rfl
  simp only [handle_interaction]
  rw [hrel1, hrel2,
      if_neg (by norm_num : ¬ ((0 : ℤ) < -30 ∨ (0 : ℤ) < -30)),
      if_neg (by norm_num : ¬ ((30 : ℤ) < 0 ∨ (30 : ℤ) < 0)),
      show nextFloat ⟨[mkRat 9 10], []⟩ = (mkRat 9 10, ⟨[], []⟩) from rfl]
  rw [if_neg (by norm_num [battle_probability, Rat.mkRat_eq_div]),
      if_neg (by norm_num [battle_probability, friendship_probability, Rat.mkRat_eq_div])]

theorem cex_step3 :
    process_pair (Except.ok []) (Except.ok "")
      ⟨[cexA2, cexB, cexC], [], [],
        [(0, 1, Band.aware), (0, 2, Band.interact)], ⟨[mkRat 9 10], []⟩⟩ (1, 2) =
      Except.ok cexFinal := by
  have hg1 : ([cexA2, cexB, cexC] : List Pokemon).getD 1 default = cexB := rfl
  have hg2 : ([cexA2, cexB, cexC] : List Pokemon).getD 2 default = cexC := rfl
  simp only [process_pair]
  rw [hg1, hg2, if_pos cex_d12', cex_interact_BC]
  simp [cexFinal]

theorem cex_run :
    pairwise_phase (Except.ok []) (Except.ok "") cexPops cexRng =
      Except.ok cexFinal := by
  unfold pairwise_phase
  rw [show pairList cexPops.length = [(0, 1), (0, 2), (1, 2)] from rfl]
  rw [foldE_cons_ok _ _ _ _ _ cex_step1, foldE_cons_ok _ _ _ _ _ cex_step2,
      foldE_cons_ok _ _ _ _ _ cex_step3]
  rfl

theorem frozen_cex :
    frozenTrace cexPops =
      [(0, 1, Band.aware), (0, 2, Band.aware), (1, 2, Band.interact)] := by
  have hb01 : bandOf (distance_to cexA cexB) = Band.aware := by
    rw [cex_d01]
    unfold bandOf
    rw [if_neg (by norm_num : ¬ (2 : ℝ) < 1.5), if_pos (by norm_num : (2 : ℝ) < 3.0)]
  have hsum : (cexC.position.1 - cexA.position.1) ^ 2 +
      (cexC.position.2 - cexA.position.2) ^ 2 = 2.56 := by
    norm_num [cexA, cexC]
  have hb02 : bandOf (distance_to cexA cexC) = Band.aware := by
    unfold bandOf
    rw [distance_to, hsum]
    rw [if_neg (not_lt.mpr ((Real.le_sqrt' (by norm_num)).mpr (by norm_num))),
        if_pos ((Real.sqrt_lt' (by norm_num)).mpr (by norm_num))]
  have hb12 : bandOf (distance_to cexB cexC) = Band.interact := by
    unfold bandOf
    rw [if_pos cex_d12']
  unfold frozenTrace
  rw [show pairList cexPops.length = [(0, 1), (0, 2), (1, 2)] from rfl]
  simp only [List.map]
  rw [show cexPops.getD 0 default = cexA from rfl,
      show cexPops.getD 1 default = cexB from rfl,
      show cexPops.getD 2 default = cexC from rfl,
      hb01, hb02, hb12]

/-- Claim C2 counterexample: the distances used to classify pairs are NOT the
positions as of the start of the pairwise phase.  With agents at x = 0, 2, 1.6
where the first hates the second, pair (0,1) moves agent 0 to x = 0.2, and
pair (0,2) is then classified as interacting (live distance 1.4) although the
start-of-phase distance 1.6 lies in the awareness band. -/
theorem c2_counterexample :
    ¬ (∀ (ctx : Except Unit (List String)) (narr : Except Unit String)
        (ps : List Pokemon) (rng : Rng) (s : PairPhaseState),
        pairwise_phase ctx narr ps rng = Except.ok s → s.trace = frozenTrace ps) := by
  intro h
  have htr := h (Except.ok []) (Except.ok "") cexPops cexRng cexFinal cex_run
  rw [frozen_cex] at htr
  rw [show cexFinal.trace =
      [(0, 1, Band.aware), (0, 2, Band.interact), (1, 2, Band.interact)] from rfl] at htr
  exact absurd htr (by decide)

theorem nextFloat_fst_ge (c : ℚ) (rng : Rng) (hc : c ≤ 1)
    (h : ∀ f ∈ rng.floats, c ≤ f) : c ≤ (nextFloat rng).1 := by
  rcases rng with ⟨fs, is⟩
  rcases fs with _ | ⟨f, fs⟩
  · exact hc
  · exact h f (List.mem_cons_self _ _)

theorem nextFloat_snd_all (c : ℚ) (rng : Rng)
    (h : ∀ f ∈ rng.floats, c ≤ f) : ∀ f ∈ (nextFloat rng).2.floats, c ≤ f := by
  rcases rng with ⟨fs, is⟩
  rcases fs with _ | ⟨f, fs⟩
  · exact h
  · exact fun g hg => h g (List.mem_cons_of_mem _ hg)

theorem bandOf_interact {d : ℝ} (h : d < 1.5) : bandOf d = Band.interact := by
  unfold bandOf
  rw [if_pos h]

theorem bandOf_aware {d : ℝ} (h1 : ¬ d < 1.5) (h2 : d < 3.0) :
    bandOf d = Band.aware := by
  unfold bandOf
  rw [if_neg h1, if_pos h2]

theorem bandOf_far {d : ℝ} (h1 : ¬ d < 1.5) (h2 : ¬ d < 3.0) :
    bandOf d = Band.far := by
  unfold bandOf
  rw [if_neg h1, if_neg h2]

theorem handle_interaction_noop (ctx : Except Unit (List String))
    (narr : Except Unit String) (p1 p2 : Pokemon) (rng : Rng)
    (h1 : ∀ k, -30 ≤ p1.relationships k ∧ p1.relationships k ≤ 50)
    (h2 : ∀ k, -30 ≤ p2.relationships k ∧ p2.relationships k ≤ 50)
    (hr : ∀ f ∈ rng.floats, mkRat 2 5 ≤ f) :
    handle_interaction ctx narr p1 p2 rng =
      Except.ok (p1, p2, [], none, (nextFloat rng).2) := by
  have hf : mkRat 2 5 ≤ (nextFloat rng).1 :=
    nextFloat_fst_ge _ _ (by norm_num [Rat.mkRat_eq_div]) hr
  have hhost : ¬ (get_relationship p1 p2.key < -30 ∨
      get_relationship p2 p1.key < -30) := by
    rw [not_or]
    exact ⟨not_lt.mpr (h1 p2.key).1, not_lt.mpr (h2 p1.key).1⟩
  simp only [handle_interaction]
  rw [if_neg hhost]
  by_cases hfr : 30 < get_relationship p1 p2.key ∨ 30 < get_relationship p2 p1.key
  · rw [if_pos hfr]
    have hfp : ¬ (nextFloat rng).1 < friendship_probability * 2 := by
      have he : friendship_probability * 2 = mkRat 2 5 := by
        norm_num [friendship_probability, Rat.mkRat_eq_div]
      rw [he]
      exact not_lt.mpr hf
    rw [if_neg hfp]
  · rw [if_neg hfr]
    have hbp : ¬ (nextFloat rng).1 < battle_probability := by
      have he : battle_probability ≤ mkRat 2 5 := by
        norm_num [battle_probability, Rat.mkRat_eq_div]
      exact not_lt.mpr (le_trans he hf)
    have hbf : ¬ (nextFloat rng).1 < battle_probability + friendship_probability := by
      have he : battle_probability + friendship_probability ≤ mkRat 2 5 := by
        norm_num [battle_probability, friendship_probability, Rat.mkRat_eq_div]
      exact not_lt.mpr (le_trans he hf)
    rw [if_neg hbp, if_neg hbf]

theorem handle_awareness_noop (p1 p2 : Pokemon)
    (h1 : ∀ k, -30 ≤ p1.relationships k ∧ p1.relationships k ≤ 50)
    (hm : p1.mood ≠ "tired") : handle_awareness p1 p2 = p1 := by
  simp only [handle_awareness, get_relationship]
  rw [if_neg (not_lt.mpr (h1 p2.key).1), if_neg (not_lt.mpr (h1 p2.key).2),
      if_neg hm]

theorem c2_amended_aux (ctx : Except Unit (List String))
    (narr : Except Unit String) (ps : List Pokemon)
    (hrel : ∀ p ∈ ps, (∀ k, -30 ≤ p.relationships k ∧ p.relationships k ≤ 50) ∧
      p.mood ≠ "tired") :
    ∀ (l : List (ℕ × ℕ)) (s : PairPhaseState), s.pokemons = ps →
      (∀ f ∈ s.rng.floats, mkRat 2 5 ≤ f) →
      ∃ s2, foldE (process_pair ctx narr) s l = Except.ok s2 ∧ s2.pokemons = ps ∧
        s2.trace = s.trace ++ l.map (fun ij => (ij.1, ij.2,
          bandOf (distance_to (ps.getD ij.1 default) (ps.getD ij.2 default)))) := by
  have hPs : ∀ p : Pokemon, p ∈ ps ∨ p = default →
      (∀ k, -30 ≤ p.relationships k ∧ p.relationships k ≤ 50) ∧
      p.mood ≠ "tired" := by
    intro p hp
    rcases hp with hp | hp
    · exact hrel p hp
    · rw [hp]
      exact ⟨fun k => ⟨show (-30 : ℤ) ≤ 0 by norm_num, show (0 : ℤ) ≤ 50 by norm_num⟩,
        show "normal" ≠ "tired" by decide⟩
  intro l
  induction l with
  | nil =>
    intro s hs hr
    exact ⟨s, rfl, hs, by simp⟩
  | cons ij t ih =>
    intro s hs hr
    obtain ⟨spk, sln, sev, str, srng⟩ := s
    dsimp at hs hr
    subst hs
    have hA := hPs (spk.getD ij.1 default) (getD_mem_or spk ij.1 default)
    have hB := hPs (spk.getD ij.2 default) (getD_mem_or spk ij.2 default)
    by_cases h15 : distance_to (spk.getD ij.1 default) (spk.getD ij.2 default) < 1.5
    · have hint := handle_interaction_noop ctx narr (spk.getD ij.1 default)
        (spk.getD ij.2 default) srng hA.1 hB.1 hr
      have hpp : process_pair ctx narr ⟨spk, sln, sev, str, srng⟩ ij =
          Except.ok ⟨(spk.set ij.1 (spk.getD ij.1 default)).set ij.2
              (spk.getD ij.2 default), sln ++ [], sev ++ [],
            str ++ [(ij.1, ij.2, Band.interact)], (nextFloat srng).2⟩ := by
        simp only [process_pair]
        rw [if_pos h15, hint]
        rfl
      rw [foldE_cons_ok _ _ _ _ _ hpp]
      obtain ⟨s2, hfold, hpk, htr⟩ := ih
        ⟨(spk.set ij.1 (spk.getD ij.1 default)).set ij.2 (spk.getD ij.2 default),
          sln ++ [], sev ++ [], str ++ [(ij.1, ij.2, Band.interact)],
          (nextFloat srng).2⟩
        (by rw [set_getD_self, set_getD_self]) (nextFloat_snd_all _ _ hr)
      refine ⟨s2, hfold, hpk, ?_⟩
      rw [htr]
      simp
      rw [← List.getD_eq_getElem?_getD, ← List.getD_eq_getElem?_getD]
      exact (bandOf_interact h15).symm
    · by_cases h30 : distance_to (spk.getD ij.1 default) (spk.getD ij.2 default) < 3.0
      · have hpp : process_pair ctx narr ⟨spk, sln, sev, str, srng⟩ ij =
            Except.ok ⟨spk.set ij.1 (spk.getD ij.1 default), sln, sev,
              str ++ [(ij.1, ij.2, Band.aware)], srng⟩ := by
          simp only [process_pair]
          rw [if_neg h15, if_pos h30, handle_awareness_noop _ _ hA.1 hA.2]
        rw [foldE_cons_ok _ _ _ _ _ hpp]
        obtain ⟨s2, hfold, hpk, htr⟩ := ih
          ⟨spk.set ij.1 (spk.getD ij.1 default), sln, sev,
            str ++ [(ij.1, ij.2, Band.aware)], srng⟩
          (by rw [set_getD_self]) hr
        refine ⟨s2, hfold, hpk, ?_⟩
        rw [htr]
        simp
        rw [← List.getD_eq_getElem?_getD, ← List.getD_eq_getElem?_getD]
        exact (bandOf_aware h15 h30).symm
      · have hpp : process_pair ctx narr ⟨spk, sln, sev, str, srng⟩ ij =
            Except.ok ⟨spk, sln, sev, str ++ [(ij.1, ij.2, Band.far)], srng⟩ := by
          simp only [process_pair]
          rw [if_neg h15, if_neg h30]
        rw [foldE_cons_ok _ _ _ _ _ hpp]
        obtain ⟨s2, hfold, hpk, htr⟩ := ih
          ⟨spk, sln, sev, str ++ [(ij.1, ij.2, Band.far)], srng⟩ rfl hr
        refine ⟨s2, hfold, hpk, ?_⟩
        rw [htr]
        simp
        rw [← List.getD_eq_getElem?_getD, ← List.getD_eq_getElem?_getD]
        exact (bandOf_far h15 h30).symm

/-- Claim C2 amended: the pairwise phase classifies each pair once, by the
Euclidean distance between the positions current when that pair is processed;
these distances can reflect awareness movements caused by earlier pairs of the
same tick (see the counterexample), and they coincide with the
start-of-phase distances whenever no pairwise handler moves an agent — in
particular when every relationship lies in [-30, 50], no agent is in the tired
mood, and every interaction roll is at least 2/5 (so no battle or friendship
fires). -/
theorem c2_amended (ctx : Except Unit (List String)) (narr : Except Unit String)
    (ps : List Pokemon) (rng : Rng)
    (hrel : ∀ p ∈ ps, (∀ k, -30 ≤ p.relationships k ∧ p.relationships k ≤ 50) ∧
      p.mood ≠ "tired")
    (hr : ∀ f ∈ rng.floats, mkRat 2 5 ≤ f) :
    ∃ s2, pairwise_phase ctx narr ps rng = Except.ok s2 ∧ s2.pokemons = ps ∧
      s2.trace = frozenTrace ps := by
  obtain ⟨s2, h1, h2, h3⟩ := c2_amended_aux ctx narr ps hrel (pairList ps.length)
    ⟨ps, [], [], [], rng⟩ rfl hr
  refine ⟨s2, h1, h2, ?_⟩
  rw [h3]
  simp [frozenTrace]

theorem c2_witness :
    (∀ p ∈ ([agentP, agentQ] : List Pokemon),
      (∀ k, -30 ≤ p.relationships k ∧ p.relationships k ≤ 50) ∧
      p.mood ≠ "tired") ∧
    (∀ f ∈ (⟨[mkRat 1 2], []⟩ : Rng).floats, mkRat 2 5 ≤ f) ∧
    ∃ s2, pairwise_phase (Except.ok []) (Except.ok "") [agentP, agentQ]
        ⟨[mkRat 1 2], []⟩ = Except.ok s2 ∧
      s2.pokemons = [agentP, agentQ] ∧ s2.trace = frozenTrace [agentP, agentQ] := by
  have hrel : ∀ p ∈ ([agentP, agentQ] : List Pokemon),
      (∀ k, -30 ≤ p.relationships k ∧ p.relationships k ≤ 50) ∧
      p.mood ≠ "tired" := by
    intro p hp
    rcases List.mem_cons.mp hp with h | h
    · rw [h]
      exact ⟨fun k => ⟨show (-30 : ℤ) ≤ 0 by norm_num, show (0 : ℤ) ≤ 50 by norm_num⟩,
        show "normal" ≠ "tired" by decide⟩
    · rcases List.mem_singleton.mp h with rfl
      exact ⟨fun k => ⟨show (-30 : ℤ) ≤ 0 by norm_num, show (0 : ℤ) ≤ 50 by norm_num⟩,
        show "normal" ≠ "tired" by decide⟩
  have hfl : ∀ f ∈ (⟨[mkRat 1 2], []⟩ : Rng).floats, mkRat 2 5 ≤ f := by
    intro f hf
    rcases List.mem_singleton.mp hf with rfl
    norm_num [Rat.mkRat_eq_div]
  exact ⟨hrel, hfl,
    c2_amended (Except.ok []) (Except.ok "") [agentP, agentQ] ⟨[mkRat 1 2], []⟩ hrel hfl⟩

end PokemonAlos
